import Mathlib

/-!
# Verification of the Gemini-OpenAI bridge translation engine

Shallow embedding of the repository's translation engine
(`src/mapper.ts`, `src/remoteimage.ts`, `src/validation.ts`) together with
theorems settling the frozen claims about it.

Conventions:
* Optional TypeScript fields become `Option`.
* Throwing TypeScript code becomes `Except String`.
* Asynchronous fetching becomes an explicit fetcher argument
  `String → Except String InlineData`; the list of URLs handed to the
  fetcher is returned alongside the result so frame effects (how many
  network fetches happened) are visible in the embedding.
* `Date.now()`, the configured model name, the configured byte ceiling
  and the platform URL-validity test are passed as explicit parameters.
-/

namespace Bridge

/- ================================================================ -/
/- §0  Small platform primitives used by the source                  -/
/- ================================================================ -/

/-- ASCII-wise lowercasing of a string, modelling `String.prototype.toLowerCase`
on the ASCII range (all reserved tool names and the data-URL syntax are ASCII). -/
def lowerStr (s : String) : String :=
  String.mk (s.toList.map Char.toLower)

/-- `pat.isPrefixOfList l`, written out to keep everything structural. -/
def startsWithChars : List Char → List Char → Bool
  | [], _ => true
  | _ :: _, [] => false
  | p :: ps, c :: cs => (p == c) && startsWithChars ps cs

/-- Substring test on char lists: does `pat` occur contiguously inside `l`?
Models `String.prototype.includes`. -/
def hasSubChars (pat : List Char) : List Char → Bool
  | [] => startsWithChars pat []
  | c :: cs => startsWithChars pat (c :: cs) || hasSubChars pat cs

/-- `url.toLowerCase().includes(pat)` for an ASCII pattern `pat`. -/
def containsCI (pat : String) (s : String) : Bool :=
  hasSubChars pat.toList (lowerStr s).toList

/- ================================================================ -/
/- §1  OpenAI-side and Gemini-side wire shapes (from types.ts)       -/
/- ================================================================ -/

/-- `{ mimeType, data }` blob carried in a Gemini `inlineData` part. -/
structure InlineData where
  mimeType : String
  data : String
deriving Repr, DecidableEq

/-- Gemini content part (`GeminiPart` in types.ts): all three fields optional. -/
structure GeminiPart where
  text : Option String := none
  thought : Option Bool := none
  inlineData : Option InlineData := none
deriving Repr, DecidableEq

/-- Gemini candidate: `{ content?: { parts?: GeminiPart[] } }`. -/
structure GeminiCandidate where
  parts : Option (List GeminiPart) := none
  hasContent : Bool := true
deriving Repr, DecidableEq

/-- Gemini usage metadata: both historically used field-name families. -/
structure GeminiUsageMetadata where
  promptTokenCount : Option Nat := none
  promptTokens : Option Nat := none
  candidatesTokenCount : Option Nat := none
  candidatesTokens : Option Nat := none
  totalTokenCount : Option Nat := none
  totalTokens : Option Nat := none
deriving Repr, DecidableEq

/-- Gemini streaming chunk (`GeminiStreamChunk` in types.ts). -/
structure GeminiStreamChunk where
  candidates : Option (List GeminiCandidate) := none
  usageMetadata : Option GeminiUsageMetadata := none
deriving Repr, DecidableEq

/-- `promptFeedback` object of a Gemini response. -/
structure PromptFeedback where
  blockReason : Option String := none
deriving Repr, DecidableEq

/-- Gemini non-streaming response (`GeminiResponse` in types.ts). -/
structure GeminiResponse where
  text : Option String := none
  candidates : Option (List GeminiCandidate) := none
  usageMetadata : Option GeminiUsageMetadata := none
  promptFeedback : Option PromptFeedback := none
  modelVersion : Option String := none
deriving Repr, DecidableEq

/-- OpenAI usage block. -/
structure OpenAIUsage where
  prompt_tokens : Nat
  completion_tokens : Nat
  total_tokens : Nat
deriving Repr, DecidableEq

/-- OpenAI non-streaming choice. -/
structure OpenAIChoice where
  index : Nat
  role : String
  content : String
  finish_reason : String
deriving Repr, DecidableEq

/-- OpenAI non-streaming chat response. -/
structure OpenAIChatResponse where
  id : String
  object : String
  created : Nat
  model : String
  choices : List OpenAIChoice
  usage : OpenAIUsage
deriving Repr, DecidableEq

/-- Outcome of `mapResponse`: either the `{error:{message}}` shape or a
full chat response. -/
inductive MapRespOut where
  | errorResp (message : String)
  | okResp (resp : OpenAIChatResponse)
deriving Repr, DecidableEq

/-- OpenAI streaming delta. -/
structure OpenAIStreamDelta where
  role : Option String := none
  content : Option String := none
deriving Repr, DecidableEq

/-- One choice of an OpenAI streaming chunk. -/
structure OpenAIStreamChoice where
  delta : OpenAIStreamDelta
  index : Nat
  finish_reason : Option String := none
deriving Repr, DecidableEq

/-- OpenAI streaming chunk. -/
structure OpenAIStreamChunk where
  choices : List OpenAIStreamChoice
  usage : Option OpenAIUsage := none
deriving Repr, DecidableEq

/- ================================================================ -/
/- §2  Non-streaming response mapper (mapper.ts, mapResponse)        -/
/- ================================================================ -/

/-- Tolerant usage translation shared by `mapResponse` and the stream
mapper: `promptTokenCount ?? promptTokens ?? 0` and so on. -/
def usageFromMetadata (u : GeminiUsageMetadata) : OpenAIUsage :=
  { prompt_tokens := (u.promptTokenCount.orElse fun _ => u.promptTokens).getD 0
    completion_tokens :=
      (u.candidatesTokenCount.orElse fun _ => u.candidatesTokens).getD 0
    total_tokens := (u.totalTokenCount.orElse fun _ => u.totalTokens).getD 0 }

/-- Embedding of `mapResponse` (mapper.ts lines 215-252).
`now` stands for `Date.now()` in milliseconds and `defaultModel` for the
value of `getModel()`; both are environment inputs of the source. -/
def mapResponse (now : Nat) (defaultModel : String) (g : GeminiResponse) :
    MapRespOut :=
  let usage := g.usageMetadata.getD {}
  match g.candidates with
  | none =>
      .errorResp
        (((g.promptFeedback.bind fun f => f.blockReason)).getD
          "No candidates returned.")
  | some _ =>
      .okResp
        { id := "chatcmpl-" ++ toString now
          object := "chat.completion"
          created := now / 1000
          model := g.modelVersion.getD defaultModel
          choices :=
            [{ index := 0
               role := "assistant"
               content := g.text.getD ""
               finish_reason := "stop" }]
          usage := usageFromMetadata usage }

/- ================================================================ -/
/- §3  Stateful stream mapper (mapper.ts, createStreamMapper)        -/
/- ================================================================ -/

/-- The body of the per-part loop inside `mapChunk`.  The accumulator is
`(content, isThinking)`; `wasThinking` is the state at the start of the
chunk and is not changed while the parts of one chunk are processed
(the closure variable is only reassigned after the loop). -/
def processPart (wasThinking : Bool) (acc : String × Bool) (part : GeminiPart) :
    String × Bool :=
  let (content, isThinking) := acc
  if part.thought = some true then
    ((if wasThinking then content else content ++ "<think>") ++ part.text.getD "",
     true)
  else
    match part.text with
    | some t =>
        ((if wasThinking && !isThinking then content ++ "</think>" else content)
          ++ t, isThinking)
    | none => (content, isThinking)

/-- One step of the stateful stream mapper: `mapChunk` of the closure
returned by `createStreamMapper`, with the mutable `wasThinking`
captured as explicit input and output state. -/
def mapChunkStep (wasThinking : Bool) (chunk : GeminiStreamChunk) :
    OpenAIStreamChunk × Bool :=
  let parts :=
    (((chunk.candidates.bind List.head?).bind
        fun c => if c.hasContent then c.parts else none).getD [])
  let (content, isThinking) := parts.foldl (processPart wasThinking) ("", false)
  ({ choices :=
       [{ delta :=
            { role := some "assistant"
              content := if content = "" then none else some content }
          index := 0
          finish_reason := none }]
     usage := chunk.usageMetadata.map usageFromMetadata },
   isThinking)

/-- Driving one stream-mapper instance (fresh `wasThinking := false`)
over a whole chunk sequence, collecting the emitted chunks. -/
def runStreamMapper (chunks : List GeminiStreamChunk) : List OpenAIStreamChunk :=
  (chunks.foldl
    (fun (st : List OpenAIStreamChunk × Bool) c =>
      let (out, w) := mapChunkStep st.2 c
      (st.1 ++ [out], w))
    ([], false)).1

/-- The delta content strings of a mapped stream, in emission order. -/
def deltaContents (outs : List OpenAIStreamChunk) : List (Option String) :=
  outs.map fun ch => (ch.choices.head?.bind fun c => c.delta.content)

/- ================================================================ -/
/- §4  Untrusted JSON values (the validator's input domain)          -/
/- ================================================================ -/

/-- A run-time JavaScript value as the validator can encounter it after
`JSON.parse` (plus `undefined`, which arises from reading an absent
property).  Numbers are modelled as rationals: the validator never
computes with them. -/
inductive JsValue where
  | undefined
  | null
  | bool (b : Bool)
  | num (q : Rat)
  | str (s : String)
  | arr (elems : List JsValue)
  | obj (fields : List (String × JsValue))

/-- JavaScript truthiness of a value. -/
def JsValue.truthy : JsValue → Bool
  | .undefined => false
  | .null => false
  | .bool b => b
  | .num q => q != 0
  | .str s => s != ""
  | .arr _ => true
  | .obj _ => true

/-- `typeof v === 'string'`. -/
def JsValue.isStr : JsValue → Bool
  | .str _ => true
  | _ => false

/-- Property read `v.k`.  On `null` and `undefined` this throws a
`TypeError`, modelled as `Except.error`; on objects it looks the key up
(absent keys give `undefined`); on every other value it gives
`undefined` (prototype properties play no role for the keys the
validator reads). -/
def getProp : JsValue → String → Except String JsValue
  | .null, k =>
      .error ("TypeError: cannot read properties of null (reading " ++ k ++ ")")
  | .undefined, k =>
      .error
        ("TypeError: cannot read properties of undefined (reading " ++ k ++ ")")
  | .obj fields, k => .ok ((fields.lookup k).getD .undefined)
  | _, _ => .ok .undefined

/- ================================================================ -/
/- §5  Request validator (validation.ts)                             -/
/- ================================================================ -/

/-- OpenAI-style error payload, the `error` object built by `createError`. -/
structure OAIError where
  message : String
  type : String
  code : Option String
deriving Repr, DecidableEq

/-- Embedding of `createError` (validation.ts lines 16-28); the optional
arguments are passed explicitly. -/
def createError (message : String) (etype : String) (code : Option String) :
    OAIError :=
  { message := message, type := etype, code := code }

/-- Result of `validateMessages`: the validated message list or one error. -/
inductive VResult where
  | valid (msgs : List JsValue)
  | invalid (err : OAIError)

/-- The allowed roles, in source order. -/
def validRoles : List String := ["system", "user", "assistant"]

/-- The inner loop of `validateMessages` over the items of an array
`content` (validation.ts lines 109-161).  `uv` models the platform
`new URL(...)` syntactic-validity test, `i` the message index and `j`
the index of the first item still to check.  Returns the first failure
as `some err`, or `none` when every item passes. -/
def checkContentItems (uv : String → Bool) (i : Nat) (j : Nat) :
    List JsValue → Except String (Option OAIError)
  | [] => .ok none
  | item :: rest => do
      let t ← getProp item "type"
      match t with
      | .str ts =>
          if ts = "text" then do
            let tx ← getProp item "text"
            if tx.isStr then
              checkContentItems uv i (j + 1) rest
            else
              .ok (some (createError
                s!"messages[{i}].content[{j}].text must be a string for type \"text\""
                "invalid_request_error" (some "invalid_type")))
          else if ts = "image_url" then do
            let iu ← getProp item "image_url"
            if iu.truthy then do
              let u ← getProp iu "url"
              match u with
              | .str us =>
                  if uv us then
                    checkContentItems uv i (j + 1) rest
                  else
                    .ok (some (createError
                      s!"messages[{i}].content[{j}].image_url.url is not a valid URL"
                      "invalid_request_error" (some "invalid_value")))
              | _ =>
                  .ok (some (createError
                    s!"messages[{i}].content[{j}].image_url.url is required for type \"image_url\""
                    "invalid_request_error" (some "missing_required_parameter")))
            else
              .ok (some (createError
                s!"messages[{i}].content[{j}].image_url.url is required for type \"image_url\""
                "invalid_request_error" (some "missing_required_parameter")))
          else
            checkContentItems uv i (j + 1) rest
      | _ =>
          .ok (some (createError
            s!"messages[{i}].content[{j}].type is required"
            "invalid_request_error" (some "missing_required_parameter")))

/-- The checks the loop body of `validateMessages` performs for the
single message `msg` at index `i` (validation.ts lines 58-162).
Returns the failure as `some err`, or `none` when the message passes. -/
def checkOneMessage (uv : String → Bool) (i : Nat) (msg : JsValue) :
    Except String (Option OAIError) := do
  let role ← getProp msg "role"
  match role with
  | .str rs =>
      if validRoles.contains rs then do
        let content ← getProp msg "content"
        match content with
        | .undefined =>
            .ok (some (createError s!"messages[{i}].content is required"
              "invalid_request_error" (some "missing_required_parameter")))
        | .null =>
            .ok (some (createError s!"messages[{i}].content is required"
              "invalid_request_error" (some "missing_required_parameter")))
        | .str _ => .ok none
        | .arr items => checkContentItems uv i 0 items
        | _ =>
            .ok (some (createError
              s!"messages[{i}].content must be a string or array"
              "invalid_request_error" (some "invalid_type")))
      else
        .ok (some (createError
          s!"messages[{i}].role must be one of: system, user, assistant"
          "invalid_request_error" (some "invalid_value")))
  | _ =>
      .ok (some (createError
        s!"messages[{i}].role is required and must be a string"
        "invalid_request_error" (some "invalid_type")))

/-- The message loop of `validateMessages`, applied to the messages from
index `i` on: first failure wins. -/
def checkMessages (uv : String → Bool) (i : Nat) :
    List JsValue → Except String (Option OAIError)
  | [] => .ok none
  | msg :: rest => do
      let r ← checkOneMessage uv i msg
      match r with
      | some e => .ok (some e)
      | none => checkMessages uv (i + 1) rest

/-- Embedding of `validateMessages` (validation.ts lines 33-165). -/
def validateMessages (uv : String → Bool) (messages : JsValue) :
    Except String VResult :=
  match messages with
  | .arr [] =>
      .ok (.invalid (createError "messages must contain at least one message"
        "invalid_request_error" (some "invalid_value")))
  | .arr xs => do
      let r ← checkMessages uv 0 xs
      match r with
      | some e => .ok (.invalid e)
      | none => .ok (.valid xs)
  | _ =>
      .ok (.invalid (createError "messages is required and must be an array"
        "invalid_request_error" (some "missing_required_parameter")))

/-- The value `validateChatRequest` returns on success: it carries the
messages field and nothing else, exactly like the source's
`{ messages: messagesResult.value }`. -/
structure ValidatedChatRequest where
  messages : List JsValue

/-- Result of `validateChatRequest`. -/
inductive VCRResult where
  | valid (value : ValidatedChatRequest)
  | invalid (err : OAIError)

/-- Embedding of `validateChatRequest` (validation.ts lines 171-196).
`typeof body === 'object'` holds exactly for objects, arrays and
`null`; `null` is excluded explicitly. -/
def validateChatRequest (uv : String → Bool) (body : JsValue) :
    Except String VCRResult :=
  match body with
  | .obj fields => do
      let r ← validateMessages uv ((fields.lookup "messages").getD .undefined)
      match r with
      | .valid msgs => .ok (.valid { messages := msgs })
      | .invalid e => .ok (.invalid e)
  | .arr _ => do
      let r ← validateMessages uv .undefined
      match r with
      | .valid msgs => .ok (.valid { messages := msgs })
      | .invalid e => .ok (.invalid e)
  | _ =>
      .ok (.invalid (createError "Request body must be a JSON object"
        "invalid_request_error" none))

/- ================================================================ -/
/- §6  Byte-level encodings used by the mapper and the fetcher       -/
/- ================================================================ -/

/-- The base64 alphabet. -/
def base64Alphabet : List Char :=
  "ABCDEFGHIJKLMNOPQRSTUVWXYZabcdefghijklmnopqrstuvwxyz0123456789+/".toList

/-- The base64 digit for a 6-bit value. -/
def b64Digit (n : Nat) : Char := base64Alphabet.getD n 'A'

/-- Standard base64 of a byte list (with `=` padding), modelling
`Buffer.prototype.toString('base64')`. -/
def b64Chars : List Nat → List Char
  | [] => []
  | [a] => [b64Digit (a / 4), b64Digit (a % 4 * 16), '=', '=']
  | [a, b] =>
      [b64Digit (a / 4), b64Digit (a % 4 * 16 + b / 16), b64Digit (b % 16 * 4), '=']
  | a :: b :: c :: rest =>
      b64Digit (a / 4) :: b64Digit (a % 4 * 16 + b / 16) ::
        b64Digit (b % 16 * 4 + c / 64) :: b64Digit (c % 64) :: b64Chars rest

/-- Base64 of a byte list, as a string. -/
def base64String (bytes : List Nat) : String := String.mk (b64Chars bytes)

/-- UTF-8 encoding of one character. -/
def utf8CharBytes (c : Char) : List Nat :=
  let n := c.toNat
  if n < 0x80 then [n]
  else if n < 0x800 then [0xC0 + n / 64, 0x80 + n % 64]
  else if n < 0x10000 then
    [0xE0 + n / 4096, 0x80 + n / 64 % 64, 0x80 + n % 64]
  else
    [0xF0 + n / 262144, 0x80 + n / 4096 % 64, 0x80 + n / 64 % 64, 0x80 + n % 64]

/-- UTF-8 encoding of a string, modelling `Buffer.from(s, 'utf8')`. -/
def strUtf8 (s : String) : List Nat := (s.toList.map utf8CharBytes).flatten

/-- Is `b` a UTF-8 continuation byte? -/
def utf8Cont (b : Nat) : Bool := 0x80 ≤ b && b ≤ 0xBF

/-- Strict RFC 3629 well-formedness of a byte run (no overlong forms, no
surrogates, nothing above U+10FFFF) — the check `decodeURIComponent`
applies to each maximal run of percent-escapes. -/
def utf8ValidRun : List Nat → Bool
  | [] => true
  | b :: rest =>
      if b < 0x80 then utf8ValidRun rest
      else if 0xC2 ≤ b && b ≤ 0xDF then
        match rest with
        | b2 :: r => utf8Cont b2 && utf8ValidRun r
        | [] => false
      else if b = 0xE0 then
        match rest with
        | b2 :: b3 :: r => (0xA0 ≤ b2 && b2 ≤ 0xBF) && utf8Cont b3 && utf8ValidRun r
        | _ => false
      else if (0xE1 ≤ b && b ≤ 0xEC) || b = 0xEE || b = 0xEF then
        match rest with
        | b2 :: b3 :: r => utf8Cont b2 && utf8Cont b3 && utf8ValidRun r
        | _ => false
      else if b = 0xED then
        match rest with
        | b2 :: b3 :: r => (0x80 ≤ b2 && b2 ≤ 0x9F) && utf8Cont b3 && utf8ValidRun r
        | _ => false
      else if b = 0xF0 then
        match rest with
        | b2 :: b3 :: b4 :: r =>
            (0x90 ≤ b2 && b2 ≤ 0xBF) && utf8Cont b3 && utf8Cont b4 && utf8ValidRun r
        | _ => false
      else if 0xF1 ≤ b && b ≤ 0xF3 then
        match rest with
        | b2 :: b3 :: b4 :: r =>
            utf8Cont b2 && utf8Cont b3 && utf8Cont b4 && utf8ValidRun r
        | _ => false
      else if b = 0xF4 then
        match rest with
        | b2 :: b3 :: b4 :: r =>
            (0x80 ≤ b2 && b2 ≤ 0x8F) && utf8Cont b3 && utf8Cont b4 && utf8ValidRun r
        | _ => false
      else false

/-- Value of a hex digit. -/
def hexVal (c : Char) : Option Nat :=
  if '0' ≤ c && c ≤ '9' then some (c.toNat - 48)
  else if 'a' ≤ c && c ≤ 'f' then some (c.toNat - 87)
  else if 'A' ≤ c && c ≤ 'F' then some (c.toNat - 55)
  else none

/-- First pass of the `decodeURIComponent` model: each `%XX` escape
becomes one byte tagged `true`, every literal character contributes its
UTF-8 bytes tagged `false`.  `none` models the `URIError` thrown on a
`%` that is not followed by two hex digits. -/
def uriTokens : List Char → Option (List (Bool × Nat))
  | [] => some []
  | '%' :: h1 :: h2 :: rest => do
      let v1 ← hexVal h1
      let v2 ← hexVal h2
      let t ← uriTokens rest
      pure ((true, v1 * 16 + v2) :: t)
  | '%' :: _ => none
  | c :: rest => do
      let t ← uriTokens rest
      pure ((utf8CharBytes c).map (fun b => (false, b)) ++ t)

/-- The maximal runs of consecutive escaped bytes, left to right. -/
def escapedRuns (l : List (Bool × Nat)) : List (List Nat) :=
  let p :=
    l.foldr
      (fun t (acc : List Nat × List (List Nat)) =>
        if t.1 then (t.2 :: acc.1, acc.2)
        else ([], if acc.1.isEmpty then acc.2 else acc.1 :: acc.2))
      ([], [])
  if p.1.isEmpty then p.2 else p.1 :: p.2

/-- Second pass: every maximal run of escaped bytes must be well-formed
UTF-8 (this is the validation `decodeURIComponent` performs). -/
def uriRunsOk (l : List (Bool × Nat)) : Bool :=
  (escapedRuns l).all utf8ValidRun

/-- The UTF-8 bytes of `decodeURIComponent(payload)` — i.e. the bytes
`Buffer.from(decodeURIComponent(payload)).toString('base64')` encodes —
or `none` when `decodeURIComponent` throws. -/
def decodeRecodeBytes (payload : List Char) : Option (List Nat) := do
  let t ← uriTokens payload
  if uriRunsOk t then some (t.map (fun x => x.2)) else none

/- ================================================================ -/
/- §7  Data-URL parsing (mapper.ts, parseDataUrl)                    -/
/- ================================================================ -/

/-- Does `c` end the `([^;,]+)?` group of the data-URL regex? -/
def mimeSep (c : Char) : Bool := c == ';' || c == ','

/-- A character the regex's `.` does not match (JS line terminators). -/
def lineTerm (c : Char) : Bool :=
  c == '\n' || c == '\r' || c.toNat = 0x2028 || c.toNat = 0x2029

/-- Case-insensitive match of the literal `data:` scheme. -/
def stripDataScheme : List Char → Option (List Char)
  | c1 :: c2 :: c3 :: c4 :: c5 :: rest =>
      if c1.toLower = 'd' && c2.toLower = 'a' && c3.toLower = 't' &&
          c4.toLower = 'a' && c5 = ':' then some rest
      else none
  | _ => none

/-- After the maximal `[^;,]*` prefix: the rest must be `,payload` or
(case-insensitively) `;base64,payload` for the regex to match. -/
def matchDataTail : List Char → Option (List Char)
  | ',' :: p => some p
  | ';' :: c1 :: c2 :: c3 :: c4 :: c5 :: c6 :: ',' :: p =>
      if c1.toLower = 'b' && c2.toLower = 'a' && c3.toLower = 's' &&
          c4.toLower = 'e' && c5 = '6' && c6 = '4' then some p
      else none
  | _ => none

/-- Embedding of `parseDataUrl` (mapper.ts lines 62-81).
`Except.error` models the `URIError` that `decodeURIComponent` throws
on a malformed payload; `.ok none` is the source's `null` (not a data
URL); `.ok (some d)` is a successful local decode. -/
def parseDataUrl (url : String) : Except String (Option InlineData) :=
  match stripDataScheme url.toList with
  | none => .ok none
  | some rest =>
      let mime := rest.takeWhile (fun c => !mimeSep c)
      let after := rest.dropWhile (fun c => !mimeSep c)
      match matchDataTail after with
      | none => .ok none
      | some payload =>
          if payload.any lineTerm then .ok none
          else
            let mimeType :=
              if mime.isEmpty then "application/octet-stream" else String.mk mime
            if containsCI ";base64," url then
              .ok (some { mimeType := mimeType, data := String.mk payload })
            else
              match decodeRecodeBytes payload with
              | some bytes => .ok (some { mimeType := mimeType, data := base64String bytes })
              | none => .error "URIError: URI malformed"

/- ================================================================ -/
/- §8  Request mapper (mapper.ts, contentToParts and mapRequest)     -/
/- ================================================================ -/

/-- The `image_url` object of a content item. -/
structure ImageUrl where
  url : String
deriving Repr, DecidableEq

/-- A content item of a validated message (`OpenAIContentItem`). -/
structure OpenAIContentItem where
  type : String
  text : Option String := none
  image_url : Option ImageUrl := none
deriving Repr, DecidableEq

/-- Message content: a string or an ordered item list. -/
inductive OpenAIContent where
  | str (s : String)
  | items (l : List OpenAIContentItem)
deriving Repr, DecidableEq

/-- Role of a validated message. -/
inductive ChatRole where
  | system
  | user
  | assistant
deriving Repr, DecidableEq

/-- A validated chat message as `mapRequest` consumes it. -/
structure ChatMessage where
  role : ChatRole
  content : OpenAIContent
deriving Repr, DecidableEq

/-- The remote fetcher as the mapper sees it: URL to blob or failure. -/
def Fetcher : Type := String → Except String InlineData

/-- Embedding of the array branch of `contentToParts` (mapper.ts lines
88-104).  Besides the parts it returns the list of URLs that were
handed to the fetcher, so the number of network fetches is observable. -/
def contentItemsToParts (fetch : Fetcher) :
    List OpenAIContentItem → Except String (List GeminiPart × List String)
  | [] => .ok ([], [])
  | item :: rest =>
      match item.type == "image_url", item.image_url with
      | true, some iu => do
          let d? ← parseDataUrl iu.url
          match d? with
          | some d => do
              let (ps, us) ← contentItemsToParts fetch rest
              .ok ({ inlineData := some d } :: ps, us)
          | none => do
              let blob ← fetch iu.url
              let (ps, us) ← contentItemsToParts fetch rest
              .ok ({ inlineData := some blob } :: ps, iu.url :: us)
      | _, _ =>
          match item.type == "text", item.text with
          | true, some t =>
              if t = "" then contentItemsToParts fetch rest
              else do
                let (ps, us) ← contentItemsToParts fetch rest
                .ok ({ text := some t } :: ps, us)
          | _, _ => contentItemsToParts fetch rest

/-- Embedding of `contentToParts` (mapper.ts lines 84-109). -/
def contentToParts (fetch : Fetcher) :
    OpenAIContent → Except String (List GeminiPart × List String)
  | .str s => .ok ([{ text := some s }], [])
  | .items l => contentItemsToParts fetch l

/-- Mutable JavaScript record used for `generationConfig`: an assoc list
with the source's key order; `setKey` updates in place or appends. -/
def JsObj : Type := List (String × JsValue)

/-- `o[k] = v` on a JavaScript object. -/
def setKey : JsObj → String → JsValue → JsObj
  | [], k, v => [(k, v)]
  | (k', v') :: rest, k, v =>
      if k' = k then (k, v) :: rest else (k', v') :: setKey rest k v

/-- `o[k]` on a JavaScript object (no throw: `o` is an object). -/
def jsLookup (o : JsObj) (k : String) : Option JsValue :=
  List.lookup k o

/-- Object spread `{...base, ...src}`. -/
def spreadInto (base : JsObj) (src : JsObj) : JsObj :=
  src.foldl (fun acc kv => setKey acc kv.1 kv.2) base

/-- Is the value `null` or `undefined` (the `??=` test)? -/
def isNullish : JsValue → Bool
  | .null => true
  | .undefined => true
  | _ => false

/-- `o[k] ??= v`. -/
def nullishSet (o : JsObj) (k : String) (v : JsValue) : JsObj :=
  match jsLookup o k with
  | some x => if isNullish x then setKey o k v else o
  | none => setKey o k v

/-- `fn.parameters` of a declared function. -/
structure FnParams where
  properties : Option (List (String × JsValue)) := none

/-- A declared OpenAI function (`OpenAIFunction`). -/
structure OpenAIFunctionDecl where
  name : String
  description : Option String := none
  parameters : Option FnParams := none

/-- The OpenAI chat request as `mapRequest` consumes it: `messages` has
been validated, every other field is still untrusted (the validator
does not constrain them), hence `JsValue`. -/
structure OpenAIChatRequest where
  messages : List ChatMessage
  model : Option String := none
  temperature : JsValue := .undefined
  max_tokens : JsValue := .undefined
  top_p : JsValue := .undefined
  stream : JsValue := .undefined
  include_reasoning : JsValue := .undefined
  generationConfig : Option JsObj := none
  functions : Option (List OpenAIFunctionDecl) := none

/-- Gemini content entry: role plus ordered parts. -/
structure GeminiContent where
  role : String
  parts : List GeminiPart
deriving Repr, DecidableEq

/-- A Gemini tools-array entry; the source only ever pushes
`{ googleSearch: {} }`. -/
inductive GeminiTool where
  | googleSearch
deriving Repr, DecidableEq

/-- The provider request assembled by `mapRequest`. -/
structure GeminiRequest where
  model : Option String
  contents : List GeminiContent
  generationConfig : JsObj
  stream : JsValue
  systemInstruction : Option String
  tools : Option (List GeminiTool)

/-- What the stub execution handler of a registered tool returns. -/
inductive ToolCallOut where
  | errObj (msg : String)
deriving Repr, DecidableEq

/-- One `registerTool` call recorded in the tool registry. -/
structure RegisteredTool where
  name : String
  title : String
  description : String
  schemaProperties : List (String × JsValue)
  handler : Unit → ToolCallOut

/-- Result of `mapRequest` (`MappedRequest`), extended with the list of
URLs that were fetched while expanding content. -/
structure MappedRequest where
  geminiReq : GeminiRequest
  tools : List RegisteredTool
  fetchedUrls : List String

/-- Reserved names activating Gemini's built-in Google-Search grounding
(`GOOGLE_SEARCH_TOOL_NAMES`). -/
def googleSearchToolNames : List String :=
  ["web_search", "google_search", "google_web_search", "search", "internet_search"]

/-- One iteration of the `findBuiltInTools` loop: a `Set`-insert of the
function's original-case name when its lowercasing is reserved. -/
def builtInStep (acc : List String) (fn : OpenAIFunctionDecl) : List String :=
  if googleSearchToolNames.contains (lowerStr fn.name) then
    if acc.contains fn.name then acc else acc ++ [fn.name]
  else acc

/-- Embedding of `findBuiltInTools` (mapper.ts lines 42-52): the names
(original casing, first occurrence order, deduplicated like a `Set`) of
declared functions whose lowercased name is reserved. -/
def findBuiltInTools : Option (List OpenAIFunctionDecl) → List String
  | none => []
  | some fns => fns.foldl builtInStep []

/-- Text extracted from a system message (mapper.ts lines 120-124):
string content directly, array content via the first `text` item. -/
def systemText : OpenAIContent → String
  | .str s => s
  | .items l =>
      (((l.find? fun c => c.type == "text").bind fun c => c.text)).getD ""

/-- One step of the system-instruction accumulator (mapper.ts line 125):
``systemInstruction = systemInstruction ? `${systemInstruction}\n\n${text}` : text``.
An accumulated empty string is falsy, so the next text replaces it
without a separator. -/
def sysStep (acc : Option String) (t : String) : Option String :=
  match acc with
  | some s => if s = "" then some t else some (s ++ "\n\n" ++ t)
  | none => some t

/-- The message loop of `mapRequest` (mapper.ts lines 116-132): system
messages feed the instruction accumulator, all others become one
content entry each (`assistant → model`, everything else → `user`). -/
def buildContents (fetch : Fetcher) (acc : Option String) :
    List ChatMessage →
      Except String (Option String × List GeminiContent × List String)
  | [] => .ok (acc, [], [])
  | m :: rest =>
      match m.role with
      | .system => buildContents fetch (sysStep acc (systemText m.content)) rest
      | r => do
          let (parts, us) ← contentToParts fetch m.content
          let (si, cs, us') ← buildContents fetch acc rest
          .ok (si,
            { role := if r = ChatRole.assistant then "model" else "user"
              parts := parts } :: cs,
            us ++ us')

/-- The named-fields-plus-raw-spread merge of `mapRequest` step 3
(mapper.ts lines 135-140): `{temperature, maxOutputTokens, topP}` with
the caller's raw `generationConfig` object spread over it. -/
def mergedConfig (body : OpenAIChatRequest) : JsObj :=
  spreadInto
    [("temperature", body.temperature), ("maxOutputTokens", body.max_tokens),
      ("topP", body.top_p)]
    (body.generationConfig.getD [])

/-- The reasoning block of `mapRequest` (mapper.ts lines 147-151): when
`include_reasoning === true`, set `thinking` and `enable_thoughts` and
apply `thinking_budget ??= 2048`; otherwise leave the config alone. -/
def reasoningAdjust (body : OpenAIChatRequest) (cfg : JsObj) : JsObj :=
  match body.include_reasoning with
  | .bool true =>
      nullishSet
        (setKey (setKey cfg "thinking" (.bool true)) "enable_thoughts"
          (.bool true))
        "thinking_budget" (.num 2048)
  | _ => cfg

/-- The generation-config assembly of `mapRequest` (mapper.ts lines
134-154): the merge, the reasoning block, then the 1M-token context
override (`maxInputTokens ??= 1_000_000`). -/
def buildGenerationConfig (body : OpenAIChatRequest) : JsObj :=
  nullishSet (reasoningAdjust body (mergedConfig body)) "maxInputTokens"
    (.num 1000000)

/-- Embedding of `mapRequest` (mapper.ts lines 111-210). -/
def mapRequest (fetch : Fetcher) (body : OpenAIChatRequest) :
    Except String MappedRequest := do
  let (si, contents, urls) ← buildContents fetch none body.messages
  let generationConfig := buildGenerationConfig body
  let builtIn := findBuiltInTools body.functions
  let geminiTools : List GeminiTool :=
    if builtIn.isEmpty then [] else [.googleSearch]
  let customFns :=
    (body.functions.getD []).filter fun fn => !builtIn.contains fn.name
  .ok
    { geminiReq :=
        { model := body.model
          contents := contents
          generationConfig := generationConfig
          stream := body.stream
          systemInstruction := si
          tools := if geminiTools.isEmpty then none else some geminiTools }
      tools :=
        customFns.map fun fn =>
          { name := fn.name
            title := fn.name
            description := fn.description.getD ""
            schemaProperties := (fn.parameters.bind fun p => p.properties).getD []
            handler := fun _ =>
              .errObj "Custom function execution not supported by proxy" }
      fetchedUrls := urls }

/- ================================================================ -/
/- §9  Remote fetcher (remoteimage.ts, fetchAndEncode)               -/
/- ================================================================ -/

/-- JavaScript whitespace skipped by `parseInt` (ASCII range). -/
def jsWs (c : Char) : Bool :=
  c == ' ' || c == '\t' || c == '\n' || c == '\r' || c == '\x0b' || c == '\x0c'

/-- Numeric value of a leading decimal-digit run, `none` when there is
no digit (`parseInt` returns `NaN`). -/
def digitsVal (l : List Char) : Option Nat :=
  let ds := l.takeWhile Char.isDigit
  if ds.isEmpty then none
  else some (ds.foldl (fun a c => a * 10 + (c.toNat - 48)) 0)

/-- `parseInt(s, 10)`: optional whitespace, optional sign, longest digit
prefix; `none` models `NaN`. -/
def jsParseInt10 (s : String) : Option Int :=
  match s.toList.dropWhile jsWs with
  | '-' :: rest => (digitsVal rest).map fun n => -(n : Int)
  | '+' :: rest => (digitsVal rest).map fun n => (n : Int)
  | rest => (digitsVal rest).map fun n => (n : Int)

/-- The upstream HTTP response as `fetchAndEncode` observes it; body
bytes arrive in `chunks`, `streamable` is whether `res.body` is an
async iterable (else the `arrayBuffer` fallback runs). -/
structure HttpResponse where
  ok : Bool
  status : Nat
  contentLength : Option String
  contentType : Option String
  chunks : List (List Nat)
  streamable : Bool

/-- The distinct failure kinds of `fetchAndEncode` (each a distinct
thrown `Error` in the source). -/
inductive FetchErr where
  | httpStatus (status : Nat)
  | overLimitHeader (declared : String)
  | overLimitStream
  | overLimitBuffer (size : Nat)
deriving Repr, DecidableEq

/-- Observable outcome of `fetchAndEncode`: the result, how many body
bytes were consumed, and whether the in-flight transfer was aborted. -/
structure FetchTrace where
  result : Except FetchErr InlineData
  bytesRead : Nat
  aborted : Bool
deriving Repr

/-- The `for await` body loop (remoteimage.ts lines 65-80): keep a
running total, abort the instant it crosses the ceiling. -/
def streamBody (maxBytes : Nat) :
    List (List Nat) → Nat → Option (List Nat) × Nat × Bool
  | [], total => (some [], total, false)
  | c :: rest, total =>
      let total' := total + c.length
      if total' > maxBytes then (none, total', true)
      else
        match streamBody maxBytes rest total' with
        | (some bs, t, ab) => (some (c ++ bs), t, ab)
        | (none, t, ab) => (none, t, ab)

/-- `res.headers.get('content-type')?.split(';')[0].trim() ?? ''`. -/
def contentTypeOf (res : HttpResponse) : String :=
  match res.contentType with
  | none => ""
  | some s =>
      let pre := s.toList.takeWhile (fun c => c != ';')
      String.mk (((pre.dropWhile jsWs).reverse.dropWhile jsWs).reverse)

/-- Does the `Content-Length` guard of remoteimage.ts line 52 fire?
(`contentLength && parseInt(contentLength, 10) > MAX`). -/
def lengthHeaderOver (maxBytes : Nat) (res : HttpResponse) : Bool :=
  match res.contentLength with
  | some s =>
      s != "" &&
        (match jsParseInt10 s with
         | some n => n > (maxBytes : Int)
         | none => false)
  | none => false

/-- Embedding of `fetchAndEncode` (remoteimage.ts lines 34-108) for a
given byte ceiling (`MAX_IMAGE_SIZE_BYTES`) and observed response.
The timeout machinery is real-time and not modelled; the claims under
verification do not involve it. -/
def fetchAndEncode (maxBytes : Nat) (res : HttpResponse) : FetchTrace :=
  if !res.ok then
    { result := .error (.httpStatus res.status), bytesRead := 0, aborted := false }
  else if lengthHeaderOver maxBytes res then
    { result := .error (.overLimitHeader (res.contentLength.getD ""))
      bytesRead := 0
      aborted := false }
  else
    let ctype := contentTypeOf res
    let mime := if ctype = "" then "image/png" else ctype
    if res.streamable then
      match streamBody maxBytes res.chunks 0 with
      | (some bs, t, _) =>
          { result := .ok { mimeType := mime, data := base64String bs }
            bytesRead := t
            aborted := false }
      | (none, t, _) =>
          { result := .error .overLimitStream, bytesRead := t, aborted := true }
    else
      let buf := res.chunks.flatten
      if buf.length > maxBytes then
        { result := .error (.overLimitBuffer buf.length)
          bytesRead := buf.length
          aborted := false }
      else
        { result := .ok { mimeType := mime, data := base64String buf }
          bytesRead := buf.length
          aborted := false }

/- ================================================================ -/
/- §10  Concrete fixtures shared by the theorems                     -/
/- ================================================================ -/

/-- A reasoning ("thought") part carrying `t`. -/
def thoughtPart (t : String) : GeminiPart :=
  { text := some t, thought := some true }

/-- A plain text part carrying `t`. -/
def plainPart (t : String) : GeminiPart :=
  { text := some t }

/-- A one-candidate stream chunk with the given parts. -/
def chunkOf (ps : List GeminiPart) : GeminiStreamChunk :=
  { candidates := some [{ parts := some ps }] }

/-- A fetcher that refuses every URL (data-URL handling never consults it). -/
def noFetch : Fetcher := fun _ => .error "network disabled"

/- ================================================================ -/
/- §11  Claim theorems                                               -/
/- ================================================================ -/

/-- Claim C1: the spec says the chunk sequence
[reasoning "a"], [reasoning "b"; plain "c"], [plain "d"] is emitted as
"<think>a", "b</think>c", "d", the close marker being written before the
first non-reasoning part of a chunk whenever the channel was open at the
start of that chunk.  The code disagrees on exactly this input: inside
chunk 2 the reasoning part "b" sets the per-chunk `isThinking` flag, so
the close condition `wasThinking && !isThinking` is false at part "c"
and no close marker is emitted; it only appears at the start of chunk 3.
The code thus emits "<think>a", "bc", "</think>d", contradicting its own
comment ("Close think tag if we were thinking but this part isn't") and
the spec. -/
theorem c1_stream_think_close_eval :
    deltaContents (runStreamMapper
        [chunkOf [thoughtPart "a"],
         chunkOf [thoughtPart "b", plainPart "c"],
         chunkOf [plainPart "d"]]) =
      [some "<think>a", some "bc", some "</think>d"] ∧
    ([some "<think>a", some "bc", some "</think>d"] : List (Option String)) ≠
      [some "<think>a", some "b</think>c", some "d"] := by
  refine ⟨rfl, ?_⟩
  decide

/-- A provider response with an empty — but present — candidate list. -/
def gRespEmptyCandidates : GeminiResponse := { candidates := some [] }

/-- Claim C2, counterexample: the claim says a response with an empty
candidate set maps to an error-shaped value, but `mapResponse` only
checks `typeof candidates === 'undefined'`, so `candidates: []` takes
the success path. -/
theorem c2_empty_candidates_counterexample :
    mapResponse 0 "gemini" gRespEmptyCandidates =
      .okResp
        { id := "chatcmpl-0"
          object := "chat.completion"
          created := 0
          model := "gemini"
          choices := [{ index := 0, role := "assistant", content := "", finish_reason := "stop" }]
          usage := { prompt_tokens := 0, completion_tokens := 0, total_tokens := 0 } } := rfl

/-- Claim C2, amended: `mapResponse` returns the error shape exactly when
the `candidates` field is absent (message: the stated block reason, else
"No candidates returned."); whenever `candidates` is present — even as
an empty array — it returns a success value with exactly one choice of
index 0, role "assistant", finish reason "stop" and content equal to the
top-level `text` field or "". -/
theorem c2_no_candidates_error_shape (now : Nat) (dm : String) (g : GeminiResponse) :
    (g.candidates = none →
      mapResponse now dm g =
        .errorResp
          (((g.promptFeedback.bind fun f => f.blockReason)).getD
            "No candidates returned.")) ∧
    (∀ cs, g.candidates = some cs →
      mapResponse now dm g =
        .okResp
          { id := "chatcmpl-" ++ toString now
            object := "chat.completion"
            created := now / 1000
            model := g.modelVersion.getD dm
            choices :=
              [{ index := 0, role := "assistant", content := g.text.getD ""
                 finish_reason := "stop" }]
            usage := usageFromMetadata (g.usageMetadata.getD {}) }) := by
  constructor
  · intro h
    simp [mapResponse, h]
  · intro cs h
    simp [mapResponse, h]

/-- Witness for C2: both branches of the amended claim at concrete
responses. -/
theorem c2_no_candidates_error_shape_witness :
    mapResponse 7 "m"
        { candidates := none
          promptFeedback := some { blockReason := some "SAFETY" } } =
      .errorResp "SAFETY" ∧
    mapResponse 7 "m" { candidates := some [], text := some "hi" } =
      .okResp
        { id := "chatcmpl-7"
          object := "chat.completion"
          created := 0
          model := "m"
          choices :=
            [{ index := 0, role := "assistant", content := "hi"
               finish_reason := "stop" }]
          usage := { prompt_tokens := 0, completion_tokens := 0, total_tokens := 0 } } := by
  constructor
  · exact (c2_no_candidates_error_shape 7 "m" _).1 rfl
  · exact (c2_no_candidates_error_shape 7 "m" _).2 [] rfl

/-- `Array.isArray`. -/
def JsValue.isArr : JsValue → Bool
  | .arr _ => true
  | _ => false

/-- `Except.ok a >>= f = f a`, stated for the do-blocks below. -/
theorem ok_bind {ε α β : Type} (a : α) (f : α → Except ε β) :
    (do let r ← Except.ok (ε := ε) a; f r) = f a := rfl

/-- `Except.error e >>= f = Except.error e`. -/
theorem error_bind {ε α β : Type} (e : ε) (f : α → Except ε β) :
    (do let r ← Except.error (α := α) e; f r) = Except.error e := rfl

/-- A passing message advances the loop. -/
theorem checkMessages_cons_ok (uv : String → Bool) (i : Nat) (m : JsValue)
    (rest : List JsValue) (h : checkOneMessage uv i m = .ok none) :
    checkMessages uv i (m :: rest) = checkMessages uv (i + 1) rest := by
  simp only [checkMessages]
  rw [h, ok_bind]

/-- A failing message stops the loop with its error. -/
theorem checkMessages_cons_err (uv : String → Bool) (i : Nat) (m : JsValue)
    (rest : List JsValue) (e : OAIError)
    (h : checkOneMessage uv i m = .ok (some e)) :
    checkMessages uv i (m :: rest) = .ok (some e) := by
  simp only [checkMessages]
  rw [h, ok_bind]

/-- Skipping a fully valid prefix of messages advances the loop to the
remaining messages with the index shifted accordingly. -/
theorem checkMessages_append (uv : String → Bool) (pre l : List JsValue) (i : Nat)
    (h : ∀ k, (hk : k < pre.length) →
      checkOneMessage uv (i + k) (pre.get ⟨k, hk⟩) = .ok none) :
    checkMessages uv i (pre ++ l) = checkMessages uv (i + pre.length) l := by
  induction pre generalizing i with
  | nil => simp
  | cons m ms ih =>
      have h0 : checkOneMessage uv i m = .ok none := by
        simpa using h 0 (by simp)
      have hrest : ∀ k, (hk : k < ms.length) →
          checkOneMessage uv (i + 1 + k) (ms.get ⟨k, hk⟩) = .ok none := by
        intro k hk
        have hk' : k + 1 < (m :: ms).length := by
          simp only [List.length_cons]
          omega
        have hh := h (k + 1) hk'
        have harith : i + (k + 1) = i + 1 + k := by omega
        simpa [harith] using hh
      rw [List.cons_append, checkMessages_cons_ok uv i m (ms ++ l) h0,
        ih (i + 1) hrest]
      congr 1
      simp
      omega

/-- On a nonempty array, `validateMessages` runs the message loop and
wraps its outcome. -/
theorem validateMessages_ne_nil (uv : String → Bool) (xs : List JsValue)
    (h : xs ≠ []) :
    validateMessages uv (.arr xs) =
      (do
        let r ← checkMessages uv 0 xs
        match r with
        | some e => Except.ok (.invalid e)
        | none => Except.ok (.valid xs)) := by
  cases xs with
  | nil => exact absurd rfl h
  | cons x xs => rfl

/-- Claim C7, counterexample: the claim promises `invalid_type` for every
message whose role is not a string, but for the JSON body
`{"messages":[null]}` the source evaluates `msg.role` on `null`, which
throws a `TypeError` instead of returning any validation error. -/
theorem c7_null_message_counterexample :
    validateMessages (fun _ => true) (.arr [.null]) =
      .error "TypeError: cannot read properties of null (reading role)" := rfl

/-- Claim C7, amended: rules are checked in order with the first failure
winning; a non-array `messages` gives `missing_required_parameter`, an
empty array gives `invalid_value`, and — for messages on which reading
`role` does not throw, i.e. every message except `null`/`undefined` —
a non-string role gives `invalid_type` and a string role outside
\x7bsystem, user, assistant\x7d gives `invalid_value`, each failure being
returned immediately as a single error (the embedding is a pure function
returning at most one error by construction). -/
theorem c7_validator_rules (uv : String → Bool) :
    (∀ ms : JsValue, ms.isArr = false →
      validateMessages uv ms =
        .ok (.invalid (createError "messages is required and must be an array"
          "invalid_request_error" (some "missing_required_parameter")))) ∧
    (validateMessages uv (.arr []) =
      .ok (.invalid (createError "messages must contain at least one message"
        "invalid_request_error" (some "invalid_value")))) ∧
    (∀ (pre : List JsValue) (v : JsValue) (rest : List JsValue) (r : JsValue),
      (∀ k, (hk : k < pre.length) →
        checkOneMessage uv k (pre.get ⟨k, hk⟩) = .ok none) →
      getProp v "role" = .ok r → r.isStr = false →
      validateMessages uv (.arr (pre ++ v :: rest)) =
        .ok (.invalid (createError
          s!"messages[{pre.length}].role is required and must be a string"
          "invalid_request_error" (some "invalid_type")))) ∧
    (∀ (pre : List JsValue) (v : JsValue) (rest : List JsValue) (rs : String),
      (∀ k, (hk : k < pre.length) →
        checkOneMessage uv k (pre.get ⟨k, hk⟩) = .ok none) →
      getProp v "role" = .ok (.str rs) → validRoles.contains rs = false →
      validateMessages uv (.arr (pre ++ v :: rest)) =
        .ok (.invalid (createError
          s!"messages[{pre.length}].role must be one of: system, user, assistant"
          "invalid_request_error" (some "invalid_value")))) := by
  refine ⟨?_, rfl, ?_, ?_⟩
  · intro ms hms
    cases ms <;> simp_all [validateMessages, JsValue.isArr]
  · intro pre v rest r hpre hrole hstr
    have hone : checkOneMessage uv pre.length v =
        .ok (some (createError
          s!"messages[{pre.length}].role is required and must be a string"
          "invalid_request_error" (some "invalid_type"))) := by
      unfold checkOneMessage
      rw [hrole]
      cases r <;> simp_all [JsValue.isStr, ok_bind]
    rw [validateMessages_ne_nil uv _ (by simp)]
    rw [checkMessages_append uv pre (v :: rest) 0 (by simpa using hpre)]
    simp only [Nat.zero_add]
    rw [checkMessages_cons_err uv pre.length v rest _ hone]
    rfl
  · intro pre v rest rs hpre hrole hrs
    have hone : checkOneMessage uv pre.length v =
        .ok (some (createError
          s!"messages[{pre.length}].role must be one of: system, user, assistant"
          "invalid_request_error" (some "invalid_value"))) := by
      unfold checkOneMessage
      rw [hrole]
      have hmem : ¬ rs ∈ validRoles := by simpa using hrs
      simp [hmem, ok_bind]
    rw [validateMessages_ne_nil uv _ (by simp)]
    rw [checkMessages_append uv pre (v :: rest) 0 (by simpa using hpre)]
    simp only [Nat.zero_add]
    rw [checkMessages_cons_err uv pre.length v rest _ hone]
    rfl

/-- A syntactically valid user message fixture. -/
def userMsgHi : JsValue := .obj [("role", .str "user"), ("content", .str "hi")]

/-- Witness for C7: each rule of the amended claim at a concrete input —
a non-array `messages`, an empty array, a message with a numeric
(`undefined`-role) second entry, and a message with role "bot". -/
theorem c7_validator_rules_witness :
    validateMessages (fun _ => true) (.str "x") =
      .ok (.invalid (createError "messages is required and must be an array"
        "invalid_request_error" (some "missing_required_parameter"))) ∧
    validateMessages (fun _ => true) (.arr [userMsgHi, .num 5]) =
      .ok (.invalid (createError
        "messages[1].role is required and must be a string"
        "invalid_request_error" (some "invalid_type"))) ∧
    validateMessages (fun _ => true)
        (.arr [.obj [("role", .str "bot"), ("content", .str "x")]]) =
      .ok (.invalid (createError
        "messages[0].role must be one of: system, user, assistant"
        "invalid_request_error" (some "invalid_value"))) := by
  refine ⟨(c7_validator_rules (fun _ => true)).1 (.str "x") rfl, ?_, ?_⟩
  · have h := (c7_validator_rules (fun _ => true)).2.2.1 [userMsgHi] (.num 5) []
      .undefined (by intro k hk; cases k with | zero => rfl | succ n => simp at hk)
      rfl rfl
    simpa using h
  · have h := (c7_validator_rules (fun _ => true)).2.2.2 []
      (.obj [("role", .str "bot"), ("content", .str "x")]) [] "bot"
      (by intro k hk; simp at hk) rfl rfl
    simpa using h

/-- Claim C10: validation constrains only `messages`.  For any object
body, whatever its other fields hold, if the `messages` entry validates
then `validateChatRequest` succeeds and returns a value carrying exactly
the validated messages (the success type has no other field, matching
the source's `{ messages: messagesResult.value }`). -/
theorem c10_validate_only_messages (uv : String → Bool)
    (fields : List (String × JsValue)) (msgs : List JsValue)
    (h : validateMessages uv ((fields.lookup "messages").getD .undefined) =
      .ok (.valid msgs)) :
    validateChatRequest uv (.obj fields) = .ok (.valid { messages := msgs }) := by
  simp [validateChatRequest, h, ok_bind]

/-- Witness for C10: a body whose `model`, `temperature`, `max_tokens`,
`top_p`, `stream`, `include_reasoning`, `generationConfig` and
`functions` fields all carry junk of the wrong type still validates. -/
theorem c10_validate_only_messages_witness :
    validateChatRequest (fun _ => true)
        (.obj
          [("model", .num 5), ("temperature", .str "x"),
           ("max_tokens", .null), ("top_p", .bool true),
           ("stream", .obj []), ("include_reasoning", .str "yes"),
           ("generationConfig", .num 0), ("functions", .null),
           ("messages", .arr [userMsgHi])]) =
      .ok (.valid { messages := [userMsgHi] }) := by
  exact c10_validate_only_messages (fun _ => true) _ [userMsgHi] rfl

/-- If the running total must cross the ceiling, the body loop stops
with an abort, whatever the chunk boundaries. -/
theorem streamBody_over (max : Nat) (chunks : List (List Nat)) (total : Nat)
    (h : total + (chunks.map List.length).sum > max) (ht : total ≤ max) :
    ∃ t, streamBody max chunks total = (none, t, true) := by
  induction chunks generalizing total with
  | nil => simp at h; omega
  | cons c rest ih =>
      by_cases hc : total + c.length > max
      · exact ⟨total + c.length, by simp [streamBody, hc]⟩
      · obtain ⟨t, ht'⟩ := ih (total + c.length)
          (by simp only [List.map_cons, List.sum_cons] at h; omega) (by omega)
        exact ⟨t, by simp [streamBody, hc, ht']⟩

/-- Claim C4: the byte ceiling is enforced twice.  (1) A successful
response whose `Content-Length` header parses to a value strictly above
the ceiling fails with the header variant of the size error before any
body byte is read.  (2) A successful response that passes the header
guard but whose streamed body bytes sum to more than the ceiling fails
with the distinct in-transfer variant, aborting the in-flight
transfer. -/
theorem c4_size_ceiling_twice (max : Nat) (res : HttpResponse) :
    (∀ s n, res.ok = true → res.contentLength = some s →
      jsParseInt10 s = some n → n > (max : Int) →
      fetchAndEncode max res =
        { result := .error (.overLimitHeader s), bytesRead := 0, aborted := false }) ∧
    (res.ok = true → lengthHeaderOver max res = false → res.streamable = true →
      (res.chunks.map List.length).sum > max →
      (fetchAndEncode max res).result = .error .overLimitStream ∧
      (fetchAndEncode max res).aborted = true) := by
  constructor
  · intro s n hok hcl hparse hgt
    have hne : s ≠ "" := by
      intro hs
      rw [hs] at hparse
      simp [jsParseInt10, digitsVal] at hparse
    have hover : lengthHeaderOver max res = true := by
      simp [lengthHeaderOver, hcl, hparse, hne, hgt]
    simp [fetchAndEncode, hok, hover, hcl]
  · intro hok hlen hstream hsum
    obtain ⟨t, ht⟩ := streamBody_over max res.chunks 0 (by omega) (by omega)
    constructor <;> simp [fetchAndEncode, hok, hlen, hstream, ht]

/-- Witness for C4: a declared length of 100 against a ceiling of 10
fails before reading; a body of 3+8 bytes with no declared length
crosses the ceiling mid-transfer and aborts. -/
theorem c4_size_ceiling_twice_witness :
    fetchAndEncode 10
        { ok := true, status := 200, contentLength := some "100",
          contentType := none, chunks := [], streamable := true } =
      { result := .error (.overLimitHeader "100"), bytesRead := 0, aborted := false } ∧
    (fetchAndEncode 10
        { ok := true, status := 200, contentLength := none,
          contentType := none, chunks := [[1, 2, 3], [4, 5, 6, 7, 8, 9, 10, 11]],
          streamable := true }).result = .error .overLimitStream ∧
    (fetchAndEncode 10
        { ok := true, status := 200, contentLength := none,
          contentType := none, chunks := [[1, 2, 3], [4, 5, 6, 7, 8, 9, 10, 11]],
          streamable := true }).aborted = true := by
  refine ⟨(c4_size_ceiling_twice 10 _).1 "100" 100 rfl rfl (by decide) (by decide), ?_⟩
  exact (c4_size_ceiling_twice 10 _).2 rfl rfl rfl (by decide)

/-- The fold underlying `findBuiltInTools` never drops accumulator
entries. -/
theorem mem_foldl_builtInStep_of_mem (fns : List OpenAIFunctionDecl)
    (acc : List String) (x : String) (h : x ∈ acc) :
    x ∈ fns.foldl builtInStep acc := by
  induction fns generalizing acc with
  | nil => simpa using h
  | cons fn fns ih =>
      apply ih
      unfold builtInStep
      split
      · split
        · exact h
        · exact List.mem_append_left _ h
      · exact h

/-- Everything the fold collects has a reserved lowercased name. -/
theorem reserved_of_mem_foldl (fns : List OpenAIFunctionDecl)
    (acc : List String) (x : String)
    (hacc : ∀ y ∈ acc, googleSearchToolNames.contains (lowerStr y) = true)
    (h : x ∈ fns.foldl builtInStep acc) :
    googleSearchToolNames.contains (lowerStr x) = true := by
  induction fns generalizing acc with
  | nil => exact hacc x h
  | cons fn fns ih =>
      refine ih (builtInStep acc fn) ?_ h
      intro y hy
      unfold builtInStep at hy
      by_cases hres : googleSearchToolNames.contains (lowerStr fn.name) = true
      · rw [if_pos hres] at hy
        by_cases hc : acc.contains fn.name = true
        · exact hacc y (by rwa [if_pos hc] at hy)
        · rw [if_neg hc] at hy
          rcases List.mem_append.mp hy with hl | hr
          · exact hacc y hl
          · have : y = fn.name := by simpa using hr
            rw [this]
            exact hres
      · exact hacc y (by rwa [if_neg hres] at hy)

/-- A declared function with a reserved lowercased name always lands in
the fold's result. -/
theorem name_mem_foldl (fns : List OpenAIFunctionDecl)
    (fn : OpenAIFunctionDecl) (acc : List String) (hmem : fn ∈ fns)
    (hres : googleSearchToolNames.contains (lowerStr fn.name) = true) :
    fn.name ∈ fns.foldl builtInStep acc := by
  induction fns generalizing acc with
  | nil => cases hmem
  | cons g gs ih =>
      simp only [List.foldl_cons]
      rcases List.mem_cons.mp hmem with heq | htl
      · subst heq
        apply mem_foldl_builtInStep_of_mem
        unfold builtInStep
        rw [if_pos hres]
        by_cases hc : acc.contains fn.name = true
        · rw [if_pos hc]
          simpa using hc
        · rw [if_neg hc]
          exact List.mem_append_right _ (by simp)
      · exact ih (builtInStep acc g) htl

/-- For a declared function, membership of its name in
`findBuiltInTools` is exactly reservedness of its lowercased name. -/
theorem mem_findBuiltInTools_iff (fns : List OpenAIFunctionDecl)
    (fn : OpenAIFunctionDecl) (h : fn ∈ fns) :
    fn.name ∈ findBuiltInTools (some fns) ↔
      googleSearchToolNames.contains (lowerStr fn.name) = true := by
  constructor
  · intro hm
    exact reserved_of_mem_foldl fns [] fn.name (by simp) hm
  · intro hres
    exact name_mem_foldl fns fn [] h hres

/-- Claim C5: if at least one declared function name case-insensitively
matches the reserved search set, the mapped provider request carries
exactly one grounding-tool entry however many names match, every
matching name is kept out of the custom registry, the registry holds
exactly the non-matching functions in order, and every registered
execution handler unconditionally reports that execution is
unsupported. -/
theorem c5_builtin_grounding (fetch : Fetcher) (body : OpenAIChatRequest)
    (r : MappedRequest) (hmap : mapRequest fetch body = .ok r)
    (fn0 : OpenAIFunctionDecl) (hfn0 : fn0 ∈ body.functions.getD [])
    (hres0 : googleSearchToolNames.contains (lowerStr fn0.name) = true) :
    r.geminiReq.tools = some [.googleSearch] ∧
    (∀ fn ∈ body.functions.getD [],
      googleSearchToolNames.contains (lowerStr fn.name) = true →
      ∀ t ∈ r.tools, t.name ≠ fn.name) ∧
    r.tools.map (fun t => t.name) =
      ((body.functions.getD []).filter
        (fun fn => !googleSearchToolNames.contains (lowerStr fn.name))).map
        (fun fn => fn.name) ∧
    (∀ t ∈ r.tools, ∀ u,
      t.handler u = .errObj "Custom function execution not supported by proxy") := by
  have hex : ∃ fns, body.functions = some fns := by
    cases hf : body.functions with
    | none =>
        rw [hf] at hfn0
        simp at hfn0
    | some fns => exact ⟨fns, rfl⟩
  obtain ⟨fns, hfns⟩ := hex
  rw [hfns] at hfn0
  simp only [Option.getD_some] at hfn0
  have hmem0 : fn0.name ∈ findBuiltInTools (some fns) :=
    name_mem_foldl fns fn0 [] hfn0 hres0
  have hIE : (findBuiltInTools (some fns)).isEmpty = false := by
    cases hcase : findBuiltInTools (some fns) with
    | nil =>
        rw [hcase] at hmem0
        cases hmem0
    | cons a l => rfl
  cases hb : buildContents fetch none body.messages with
  | error e =>
      simp only [mapRequest, hb, error_bind] at hmap
      exact Except.noConfusion hmap
  | ok tri =>
      obtain ⟨si, cs, us⟩ := tri
      simp only [mapRequest, hb, ok_bind, hfns, Except.ok.injEq] at hmap
      subst hmap
      rw [hfns]
      simp only [Option.getD_some]
      refine ⟨?_, ?_, ?_, ?_⟩
      · simp [hIE]
      · intro fn hfn hres t ht hname
        obtain ⟨fn', hfn', hteq⟩ := List.mem_map.mp ht
        have hfil := List.mem_filter.mp hfn'
        have hnmem : fn'.name ∉ findBuiltInTools (some fns) := by
          intro hm
          have hc : (findBuiltInTools (some fns)).contains fn'.name = true :=
            List.elem_eq_true_of_mem hm
          have hf2 := hfil.2
          rw [hc] at hf2
          simp at hf2
        have hmemfn : fn.name ∈ findBuiltInTools (some fns) :=
          name_mem_foldl fns fn [] hfn hres
        have hnamet : t.name = fn'.name := by rw [← hteq]
        rw [hnamet] at hname
        rw [hname] at hnmem
        exact hnmem hmemfn
      · rw [List.map_map]
        have hfe :
            fns.filter
                (fun fn => !(findBuiltInTools (some fns)).contains fn.name) =
              fns.filter
                (fun fn => !googleSearchToolNames.contains (lowerStr fn.name)) := by
          apply List.filter_congr
          intro fn hfn
          have hiff := mem_findBuiltInTools_iff fns fn hfn
          by_cases hres : googleSearchToolNames.contains (lowerStr fn.name) = true
          · have hc : (findBuiltInTools (some fns)).contains fn.name = true :=
              List.elem_eq_true_of_mem (hiff.2 hres)
            rw [hc, hres]
          · have hm : fn.name ∉ findBuiltInTools (some fns) := fun hmm =>
              hres (hiff.1 hmm)
            have hc : (findBuiltInTools (some fns)).contains fn.name = false := by
              cases hcc : (findBuiltInTools (some fns)).contains fn.name
              · rfl
              · exact absurd (List.mem_of_elem_eq_true hcc) hm
            have hres2 : googleSearchToolNames.contains (lowerStr fn.name) = false := by
              cases hcc : googleSearchToolNames.contains (lowerStr fn.name)
              · rfl
              · exact absurd hcc hres
            rw [hc, hres2]
        rw [hfe]
        rfl
      · intro t ht u
        obtain ⟨fn', hfn', hteq⟩ := List.mem_map.mp ht
        rw [← hteq]

/-- A request declaring `Google_Search` (reserved, case-insensitively)
next to a custom function `myTool`. -/
def c5Body : OpenAIChatRequest :=
  { messages := []
    functions := some [{ name := "Google_Search" }, { name := "myTool", description := some "d" }] }

/-- What `mapRequest` produces for `c5Body`. -/
def c5Mapped : MappedRequest :=
  { geminiReq :=
      { model := none
        contents := []
        generationConfig :=
          [("temperature", .undefined), ("maxOutputTokens", .undefined), ("topP", .undefined),
            ("maxInputTokens", .num 1000000)]
        stream := .undefined
        systemInstruction := none
        tools := some [.googleSearch] }
    tools :=
      [{ name := "myTool", title := "myTool", description := "d"
         schemaProperties := []
         handler := fun _ =>
           .errObj "Custom function execution not supported by proxy" }]
    fetchedUrls := [] }

/-- Witness for C5: on `c5Body` the mapped request has exactly one
grounding tool entry and the registry holds only `myTool`. -/
theorem c5_builtin_grounding_witness :
    c5Mapped.geminiReq.tools = some [.googleSearch] ∧
    c5Mapped.tools.map (fun t => t.name) = ["myTool"] := by
  have h := c5_builtin_grounding noFetch c5Body c5Mapped rfl
    { name := "Google_Search" } (List.mem_cons_self _ _) (by decide)
  refine ⟨h.1, ?_⟩
  rw [h.2.2.1]
  rfl

/-- The texts of the system messages, in input order. -/
def systemTexts (msgs : List ChatMessage) : List String :=
  (msgs.filter (fun m => m.role == ChatRole.system)).map fun m =>
    systemText m.content

/-- The blank-line join the spec describes: texts concatenated in order,
separated by `"\n\n"`. -/
def specJoin (ts : List String) : String :=
  match ts with
  | [] => ""
  | t :: ts => ts.foldl (fun a b => a ++ "\n\n" ++ b) t

/-- Once the accumulator is nonempty, the source's truthiness-guarded
accumulation coincides with the blank-line join. -/
theorem sysFold_of_ne (ts : List String) (s : String) (hs : s ≠ "") :
    ts.foldl sysStep (some s) =
      some (ts.foldl (fun a b => a ++ "\n\n" ++ b) s) := by
  induction ts generalizing s with
  | nil => rfl
  | cons t ts ih =>
      have hne : s ++ "\n\n" ++ t ≠ "" := by
        intro h0
        have hlen := congrArg String.length h0
        rw [String.length_append, String.length_append] at hlen
        have h2 : ("\n\n" : String).length = 2 := rfl
        have h3 : ("" : String).length = 0 := rfl
        rw [h2, h3] at hlen
        omega
      simp only [List.foldl_cons, sysStep, if_neg hs]
      exact ih (s ++ "\n\n" ++ t) hne

/-- Characterisation of the message loop: the final system instruction
is the truthiness-guarded fold of the system texts over the incoming
accumulator, and the produced contents correspond one-to-one (in order)
to the non-system messages with `assistant → model`, else `user`. -/
theorem buildContents_spec (fetch : Fetcher) (msgs : List ChatMessage)
    (acc : Option String) (si : Option String) (cs : List GeminiContent)
    (us : List String)
    (h : buildContents fetch acc msgs = .ok (si, cs, us)) :
    si = (msgs.filter (fun m => m.role == ChatRole.system)).foldl
        (fun a m => sysStep a (systemText m.content)) acc ∧
    cs.map (fun c => c.role) =
      (msgs.filter (fun m => !(m.role == ChatRole.system))).map
        (fun m => if m.role = ChatRole.assistant then "model" else "user") := by
  induction msgs generalizing acc si cs us with
  | nil =>
      simp only [buildContents, Except.ok.injEq, Prod.mk.injEq] at h
      obtain ⟨rfl, rfl, rfl⟩ := h
      simp
  | cons m rest ih =>
      simp only [buildContents] at h
      cases hrole : m.role with
      | system =>
          rw [hrole] at h
          have := ih (sysStep acc (systemText m.content)) si cs us h
          simp only [List.filter_cons, hrole]
          simpa using this
      | user =>
          rw [hrole] at h
          dsimp only at h
          cases hp : contentToParts fetch m.content with
          | error e => rw [hp, error_bind] at h; exact Except.noConfusion h
          | ok pr =>
              obtain ⟨parts, us1⟩ := pr
              rw [hp, ok_bind] at h
              cases hb2 : buildContents fetch acc rest with
              | error e => rw [hb2, error_bind] at h; exact Except.noConfusion h
              | ok tri =>
                  obtain ⟨si2, cs2, us2⟩ := tri
                  rw [hb2, ok_bind] at h
                  simp only [Except.ok.injEq, Prod.mk.injEq] at h
                  obtain ⟨h1, h2, h3⟩ := h
                  have hih := ih acc si2 cs2 us2 hb2
                  constructor
                  · rw [← h1, hih.1]
                    simp [List.filter_cons, hrole]
                  · rw [← h2]
                    simp only [List.map_cons]
                    rw [hih.2]
                    simp [List.filter_cons, hrole]
      | assistant =>
          rw [hrole] at h
          dsimp only at h
          cases hp : contentToParts fetch m.content with
          | error e => rw [hp, error_bind] at h; exact Except.noConfusion h
          | ok pr =>
              obtain ⟨parts, us1⟩ := pr
              rw [hp, ok_bind] at h
              cases hb2 : buildContents fetch acc rest with
              | error e => rw [hb2, error_bind] at h; exact Except.noConfusion h
              | ok tri =>
                  obtain ⟨si2, cs2, us2⟩ := tri
                  rw [hb2, ok_bind] at h
                  simp only [Except.ok.injEq, Prod.mk.injEq] at h
                  obtain ⟨h1, h2, h3⟩ := h
                  have hih := ih acc si2 cs2 us2 hb2
                  constructor
                  · rw [← h1, hih.1]
                    simp [List.filter_cons, hrole]
                  · rw [← h2]
                    simp only [List.map_cons]
                    rw [hih.2]
                    simp [List.filter_cons, hrole]

/-- Two system messages, the first with empty text. -/
def c6Body : OpenAIChatRequest :=
  { messages :=
      [{ role := .system, content := .str "" },
       { role := .system, content := .str "b" }] }

/-- Claim C6, counterexample: with system texts `""` then `"b"`, the
blank-line join is `"\n\nb"`, but the source's accumulator is the falsy
empty string after the first message, so the second text replaces it and
the mapped system instruction is plain `"b"`. -/
theorem c6_empty_system_counterexample :
    (mapRequest noFetch c6Body).map (fun r => r.geminiReq.systemInstruction) =
      .ok (some "b") ∧
    some "b" ≠ some ("" ++ "\n\n" ++ "b") := by
  refine ⟨rfl, ?_⟩
  decide

/-- Claim C6, amended: no system message yields a content entry and the
non-system messages map one-to-one, in order, to entries with
`user → "user"`, `assistant → "model"`.  The system instruction is the
fold of the system texts where a text is appended with a blank-line
separator only when the accumulated instruction so far is nonempty
(otherwise it replaces it); in particular it equals the blank-line join
of all system texts whenever the first system text is nonempty, and it
is absent when there is no system message. -/
theorem c6_system_partition (fetch : Fetcher) (body : OpenAIChatRequest)
    (r : MappedRequest) (h : mapRequest fetch body = .ok r) :
    r.geminiReq.systemInstruction =
      (systemTexts body.messages).foldl sysStep none ∧
    r.geminiReq.contents.map (fun c => c.role) =
      (body.messages.filter (fun m => !(m.role == ChatRole.system))).map
        (fun m => if m.role = ChatRole.assistant then "model" else "user") ∧
    (∀ t ts, systemTexts body.messages = t :: ts → t ≠ "" →
      r.geminiReq.systemInstruction = some (specJoin (t :: ts))) := by
  cases hb : buildContents fetch none body.messages with
  | error e =>
      simp only [mapRequest, hb, error_bind] at h
      exact Except.noConfusion h
  | ok tri =>
      obtain ⟨si, cs, us⟩ := tri
      simp only [mapRequest, hb, ok_bind, Except.ok.injEq] at h
      subst h
      obtain ⟨h1, h2⟩ := buildContents_spec fetch body.messages none si cs us hb
      have hfold : si = (systemTexts body.messages).foldl sysStep none := by
        rw [h1, systemTexts, List.foldl_map]
      refine ⟨hfold, h2, ?_⟩
      intro t ts hts ht
      rw [hfold, hts]
      simp only [List.foldl_cons, sysStep]
      rw [sysFold_of_ne ts t ht]
      rfl

/-- A conversation interleaving system, user, system and assistant
messages. -/
def c6WBody : OpenAIChatRequest :=
  { messages :=
      [{ role := .system, content := .str "a" },
       { role := .user, content := .str "hi" },
       { role := .system, content := .str "b" },
       { role := .assistant, content := .str "ok" }] }

/-- What `mapRequest` produces for `c6WBody`. -/
def c6WMapped : MappedRequest :=
  { geminiReq :=
      { model := none
        contents :=
          [{ role := "user", parts := [{ text := some "hi" }] },
           { role := "model", parts := [{ text := some "ok" }] }]
        generationConfig :=
          [("temperature", .undefined), ("maxOutputTokens", .undefined), ("topP", .undefined),
            ("maxInputTokens", .num 1000000)]
        stream := .undefined
        systemInstruction := some "a\n\nb"
        tools := none }
    tools := []
    fetchedUrls := [] }

/-- Witness for C6: the mixed conversation maps to system instruction
`"a\n\nb"` and content roles `["user", "model"]`. -/
theorem c6_system_partition_witness :
    c6WMapped.geminiReq.systemInstruction = some "a\n\nb" ∧
    c6WMapped.geminiReq.contents.map (fun c => c.role) = ["user", "model"] := by
  have h := c6_system_partition noFetch c6WBody c6WMapped rfl
  constructor
  · rw [h.2.2 "a" ["b"] rfl (by decide)]
    rfl
  · rw [h.2.1]
    rfl

/-- Setting a key makes it readable. -/
theorem jsLookup_setKey_self (o : JsObj) (k : String) (v : JsValue) :
    jsLookup (setKey o k v) k = some v := by
  induction o with
  | nil => simp [setKey, jsLookup, List.lookup]
  | cons kv o ih =>
      obtain ⟨k', v'⟩ := kv
      by_cases hk : k' = k
      · subst hk
        simp [setKey, jsLookup, List.lookup]
      · simp only [setKey, if_neg hk, jsLookup, List.lookup]
        cases hbeq : (k == k') with
        | true => exact absurd (eq_of_beq hbeq).symm hk
        | false => exact ih

/-- Setting a key leaves every other key unchanged. -/
theorem jsLookup_setKey_other (o : JsObj) (k k' : String) (v : JsValue)
    (h : k' ≠ k) : jsLookup (setKey o k v) k' = jsLookup o k' := by
  induction o with
  | nil =>
      simp only [setKey, jsLookup, List.lookup]
      cases hbeq : (k' == k) with
      | true => exact absurd (eq_of_beq hbeq) h
      | false => rfl
  | cons kv o ih =>
      obtain ⟨k0, v0⟩ := kv
      by_cases hk : k0 = k
      · subst hk
        simp only [setKey, if_pos rfl, jsLookup, List.lookup]
        cases hbeq : (k' == k0) with
        | true => exact absurd (eq_of_beq hbeq) h
        | false => rfl
      · simp only [setKey, if_neg hk, jsLookup, List.lookup]
        cases hbeq : (k' == k0) with
        | true => rfl
        | false => exact ih

/-- `??=` on a different key changes nothing at `k'`. -/
theorem jsLookup_nullishSet_other (o : JsObj) (k k' : String) (v : JsValue)
    (h : k' ≠ k) : jsLookup (nullishSet o k v) k' = jsLookup o k' := by
  unfold nullishSet
  cases jsLookup o k with
  | none => exact jsLookup_setKey_other o k k' v h
  | some x =>
      by_cases hx : isNullish x = true
      · simp only [hx, if_pos rfl]
        exact jsLookup_setKey_other o k k' v h
      · simp [hx]

/-- A request asking for reasoning whose raw config carries
`thinking_budget: null`. -/
def c8Body : OpenAIChatRequest :=
  { messages := []
    include_reasoning := .bool true
    generationConfig := some [("thinking_budget", .null)] }

/-- Claim C8, counterexample: the claim says a caller-supplied
`thinking_budget` key is kept, but the source applies the default with
`??=`, which also overwrites a present-but-`null` value: for
`thinking_budget: null` the mapped config carries 2048, not the
caller's `null`. -/
theorem c8_null_budget_counterexample :
    (mapRequest noFetch c8Body).map
        (fun r => jsLookup r.geminiReq.generationConfig "thinking_budget") =
      .ok (some (.num 2048)) ∧
    JsValue.num 2048 ≠ JsValue.null := by
  refine ⟨rfl, ?_⟩
  intro h
  exact JsValue.noConfusion h

/-- Claim C8, amended: with `include_reasoning === true` the mapped
config carries the reasoning flag under both names (`thinking` and
`enable_thoughts`, both `true`) and a `thinking_budget` that keeps the
caller's merged value whenever that value exists and is not nullish,
and is the default 2048 whenever the caller's merged config lacks the
key or holds a nullish (`null`/`undefined`) value.  Without
`include_reasoning === true` the mapper adds neither flag nor budget:
all three keys read exactly as in the plain merge of named fields and
raw config. -/
theorem c8_reasoning_config (fetch : Fetcher) (body : OpenAIChatRequest)
    (r : MappedRequest) (hmap : mapRequest fetch body = .ok r) :
    (body.include_reasoning = .bool true →
      jsLookup r.geminiReq.generationConfig "thinking" = some (.bool true) ∧
      jsLookup r.geminiReq.generationConfig "enable_thoughts" = some (.bool true) ∧
      (∀ v, jsLookup (mergedConfig body) "thinking_budget" = some v →
        isNullish v = false →
        jsLookup r.geminiReq.generationConfig "thinking_budget" = some v) ∧
      ((jsLookup (mergedConfig body) "thinking_budget" = none ∨
        (∃ v, jsLookup (mergedConfig body) "thinking_budget" = some v ∧
          isNullish v = true)) →
        jsLookup r.geminiReq.generationConfig "thinking_budget" =
          some (.num 2048))) ∧
    (body.include_reasoning ≠ .bool true →
      jsLookup r.geminiReq.generationConfig "thinking" =
        jsLookup (mergedConfig body) "thinking" ∧
      jsLookup r.geminiReq.generationConfig "enable_thoughts" =
        jsLookup (mergedConfig body) "enable_thoughts" ∧
      jsLookup r.geminiReq.generationConfig "thinking_budget" =
        jsLookup (mergedConfig body) "thinking_budget") := by
  have hcfg : r.geminiReq.generationConfig = buildGenerationConfig body := by
    cases hb : buildContents fetch none body.messages with
    | error e =>
        simp only [mapRequest, hb, error_bind] at hmap
        exact Except.noConfusion hmap
    | ok tri =>
        obtain ⟨si, cs, us⟩ := tri
        simp only [mapRequest, hb, ok_bind, Except.ok.injEq] at hmap
        subst hmap
        rfl
  rw [hcfg]
  unfold buildGenerationConfig
  constructor
  · intro hir
    have hra : reasoningAdjust body (mergedConfig body) =
        nullishSet
          (setKey (setKey (mergedConfig body) "thinking" (.bool true))
            "enable_thoughts" (.bool true))
          "thinking_budget" (.num 2048) := by
      unfold reasoningAdjust
      rw [hir]
    rw [hra]
    set m := mergedConfig body with hm
    set withFlags :=
      setKey (setKey m "thinking" (.bool true)) "enable_thoughts" (.bool true)
      with hwf
    have hth : jsLookup withFlags "thinking" = some (.bool true) := by
      rw [hwf, jsLookup_setKey_other _ _ _ _ (by decide), jsLookup_setKey_self]
    have het : jsLookup withFlags "enable_thoughts" = some (.bool true) := by
      rw [hwf, jsLookup_setKey_self]
    have htb : jsLookup withFlags "thinking_budget" =
        jsLookup m "thinking_budget" := by
      rw [hwf, jsLookup_setKey_other _ _ _ _ (by decide),
        jsLookup_setKey_other _ _ _ _ (by decide)]
    refine ⟨?_, ?_, ?_, ?_⟩
    · rw [jsLookup_nullishSet_other _ _ _ _ (by decide),
        jsLookup_nullishSet_other _ _ _ _ (by decide)]
      exact hth
    · rw [jsLookup_nullishSet_other _ _ _ _ (by decide),
        jsLookup_nullishSet_other _ _ _ _ (by decide)]
      exact het
    · intro v hv hnn
      rw [jsLookup_nullishSet_other _ _ _ _ (by decide)]
      unfold nullishSet
      rw [htb, hv]
      dsimp only
      rw [hnn]
      simp [htb, hv]
    · intro hcase
      rw [jsLookup_nullishSet_other _ _ _ _ (by decide)]
      unfold nullishSet
      rw [htb]
      rcases hcase with hnone | ⟨v, hv, hnull⟩
      · rw [hnone]
        exact jsLookup_setKey_self _ _ _
      · rw [hv]
        dsimp only
        rw [hnull]
        simp [jsLookup_setKey_self]
  · intro hir
    have hmatch : reasoningAdjust body (mergedConfig body) = mergedConfig body := by
      unfold reasoningAdjust
      cases hb : body.include_reasoning with
      | bool b =>
          cases b with
          | true => exact absurd rfl (hb ▸ hir)
          | false => rfl
      | undefined => rfl
      | null => rfl
      | num q => rfl
      | str s => rfl
      | arr l => rfl
      | obj f => rfl
    rw [hmatch]
    refine ⟨?_, ?_, ?_⟩ <;>
      exact jsLookup_nullishSet_other _ _ _ _ (by decide)

/-- Witness for C8: a caller-supplied budget of 512 is kept and the
flags are set; with no caller budget the default 2048 applies; without
`include_reasoning` the flag keys stay absent. -/
theorem c8_reasoning_config_witness :
    jsLookup (buildGenerationConfig
        { messages := [], include_reasoning := .bool true
          generationConfig := some [("thinking_budget", .num 512)] })
      "thinking_budget" = some (.num 512) ∧
    jsLookup (buildGenerationConfig
        { messages := [], include_reasoning := .bool true })
      "thinking_budget" = some (.num 2048) ∧
    jsLookup (buildGenerationConfig { messages := [] }) "thinking" = none := by
  have h1 := c8_reasoning_config noFetch
    { messages := [], include_reasoning := .bool true
      generationConfig := some [("thinking_budget", .num 512)] } _ rfl
  have h2 := c8_reasoning_config noFetch
    { messages := [], include_reasoning := .bool true } _ rfl
  have h3 := c8_reasoning_config noFetch { messages := [] } _ rfl
  refine ⟨?_, ?_, ?_⟩
  · exact (h1.1 rfl).2.2.1 (.num 512) rfl rfl
  · exact (h2.1 rfl).2.2.2 (Or.inl rfl)
  · have := (h3.2 (by intro h; exact JsValue.noConfusion h)).1
    exact this.trans rfl

/-- What a single content item contributes: the branch structure of the
loop body of `contentToParts` (mapper.ts lines 89-103) for one item,
with the parts it pushes and the URLs it fetches. -/
def itemParts (fetch : Fetcher) (item : OpenAIContentItem) :
    Except String (List GeminiPart × List String) :=
  match item.type == "image_url", item.image_url with
  | true, some iu => do
      let d? ← parseDataUrl iu.url
      match d? with
      | some d => .ok ([{ inlineData := some d }], [])
      | none => do
          let blob ← fetch iu.url
          .ok ([{ inlineData := some blob }], [iu.url])
  | _, _ =>
      match item.type == "text", item.text with
      | true, some t =>
          if t = "" then .ok ([], []) else .ok ([{ text := some t }], [])
      | _, _ => .ok ([], [])

/-- The item loop resolves items in encounter order: one item's
contribution, then the rest, concatenated. -/
theorem contentItemsToParts_cons (fetch : Fetcher) (item : OpenAIContentItem)
    (rest : List OpenAIContentItem) :
    contentItemsToParts fetch (item :: rest) =
      (do
        let (p1, u1) ← itemParts fetch item
        let (p2, u2) ← contentItemsToParts fetch rest
        Except.ok (p1 ++ p2, u1 ++ u2)) := by
  simp only [contentItemsToParts, itemParts]
  cases hti : (item.type == "image_url") with
  | true =>
      cases hiu : item.image_url with
      | some iu =>
          dsimp only
          cases hp : parseDataUrl iu.url with
          | error e => simp [error_bind]
          | ok d? =>
              cases d? with
              | some d =>
                  simp only [ok_bind]
                  cases hr : contentItemsToParts fetch rest with
                  | error e => simp [error_bind]
                  | ok pr =>
                      obtain ⟨ps, us⟩ := pr
                      simp [ok_bind]
              | none =>
                  simp only [ok_bind]
                  cases hf : fetch iu.url with
                  | error e => simp [error_bind]
                  | ok blob =>
                      simp only [ok_bind]
                      cases hr : contentItemsToParts fetch rest with
                      | error e => simp [error_bind]
                      | ok pr =>
                          obtain ⟨ps, us⟩ := pr
                          simp [ok_bind]
      | none =>
          dsimp only
          cases htt : (item.type == "text") with
          | true =>
              cases htx : item.text with
              | some t =>
                  dsimp only
                  by_cases ht0 : t = ""
                  · rw [if_pos ht0, if_pos ht0, ok_bind]
                    cases hr : contentItemsToParts fetch rest with
                    | error e => simp [error_bind]
                    | ok pr =>
                        obtain ⟨ps, us⟩ := pr
                        simp [ok_bind]
                  · rw [if_neg ht0, if_neg ht0, ok_bind]
                    cases hr : contentItemsToParts fetch rest with
                    | error e => simp [error_bind]
                    | ok pr =>
                        obtain ⟨ps, us⟩ := pr
                        simp [ok_bind]
              | none =>
                  dsimp only
                  rw [ok_bind]
                  cases hr : contentItemsToParts fetch rest with
                  | error e => simp [error_bind]
                  | ok pr =>
                      obtain ⟨ps, us⟩ := pr
                      simp [ok_bind]
          | false =>
              dsimp only
              rw [ok_bind]
              cases hr : contentItemsToParts fetch rest with
              | error e => simp [error_bind]
              | ok pr =>
                  obtain ⟨ps, us⟩ := pr
                  simp [ok_bind]
  | false =>
      dsimp only
      cases htt : (item.type == "text") with
      | true =>
          cases htx : item.text with
          | some t =>
              dsimp only
              by_cases ht0 : t = ""
              · rw [if_pos ht0, if_pos ht0, ok_bind]
                cases hr : contentItemsToParts fetch rest with
                | error e => simp [error_bind]
                | ok pr =>
                    obtain ⟨ps, us⟩ := pr
                    simp [ok_bind]
              · rw [if_neg ht0, if_neg ht0, ok_bind]
                cases hr : contentItemsToParts fetch rest with
                | error e => simp [error_bind]
                | ok pr =>
                    obtain ⟨ps, us⟩ := pr
                    simp [ok_bind]
          | none =>
              dsimp only
              rw [ok_bind]
              cases hr : contentItemsToParts fetch rest with
              | error e => simp [error_bind]
              | ok pr =>
                  obtain ⟨ps, us⟩ := pr
                  simp [ok_bind]
      | false =>
          dsimp only
          rw [ok_bind]
          cases hr : contentItemsToParts fetch rest with
          | error e => simp [error_bind]
          | ok pr =>
              obtain ⟨ps, us⟩ := pr
              simp [ok_bind]

/-- Claim C9, counterexample: the claim says a `text` item passes
through for every string value of its `text` field including the empty
string, but the loop guard `item.type === 'text' && item.text` is
truthiness-based, so an empty-string text item is dropped entirely. -/
theorem c9_empty_text_counterexample :
    contentToParts noFetch (.items [{ type := "text", text := some "" }]) =
      .ok ([], []) ∧
    ([] : List GeminiPart) ≠ [{ text := some "" }] := by
  refine ⟨rfl, ?_⟩
  decide

/-- Claim C9, amended: array items resolve strictly in encounter order
(each item's contribution is emitted before the rest of the list is
processed); a `text` item passes through verbatim as one text part when
its text is a nonempty string, while an empty-string `text` item is
silently skipped (truthiness guard), as are items whose `text` field is
missing and items whose type is neither `text` nor `image_url`. -/
theorem c9_text_items (fetch : Fetcher) :
    (∀ item rest, contentItemsToParts fetch (item :: rest) =
      (do
        let (p1, u1) ← itemParts fetch item
        let (p2, u2) ← contentItemsToParts fetch rest
        Except.ok (p1 ++ p2, u1 ++ u2))) ∧
    (∀ t iu, t ≠ "" →
      itemParts fetch { type := "text", text := some t, image_url := iu } =
        .ok ([{ text := some t }], [])) ∧
    (∀ iu, itemParts fetch { type := "text", text := some "", image_url := iu } =
      .ok ([], [])) ∧
    (∀ item, item.type ≠ "text" → item.type ≠ "image_url" →
      itemParts fetch item = .ok ([], [])) ∧
    (∀ t, contentToParts fetch (.items [{ type := "text", text := some t }]) =
      .ok (if t = "" then [] else [{ text := some t }], [])) := by
  refine ⟨contentItemsToParts_cons fetch, ?_, ?_, ?_, ?_⟩
  · intro t iu ht
    simp [itemParts, ht]
  · intro iu
    simp [itemParts]
  · intro item h1 h2
    have e1 : (item.type == "image_url") = false := by simpa using h2
    have e2 : (item.type == "text") = false := by simpa using h1
    simp only [itemParts, e1, e2]
  · intro t
    by_cases ht : t = ""
    · simp [contentToParts, contentItemsToParts, ht]
    · simp [contentToParts, contentItemsToParts, ht, ok_bind]

/-- Witness for C9: a nonempty text item passes through, an empty one
and an unrecognized one are skipped. -/
theorem c9_text_items_witness :
    itemParts noFetch { type := "text", text := some "a" } =
      .ok ([{ text := some "a" }], []) ∧
    itemParts noFetch { type := "text", text := some "" } = .ok ([], []) ∧
    itemParts noFetch { type := "weird" } = .ok ([], []) := by
  exact ⟨(c9_text_items noFetch).2.1 "a" none (by decide),
    (c9_text_items noFetch).2.2.1 none,
    (c9_text_items noFetch).2.2.2.1 _ (by decide) (by decide)⟩

/-- `toList` distributes over string append. -/
theorem strToList_append (a b : String) :
    (a ++ b).toList = a.toList ++ b.toList := rfl

/-- Stripping the (case-insensitive) `data:` scheme from a literal
lowercase spelling. -/
theorem stripDataScheme_cons (xs : List Char) :
    stripDataScheme ('d' :: 'a' :: 't' :: 'a' :: ':' :: xs) = some xs := rfl

/-- The `,payload` tail of the regex. -/
theorem matchDataTail_comma (p : List Char) :
    matchDataTail (',' :: p) = some p := rfl

/-- The `;base64,payload` tail of the regex. -/
theorem matchDataTail_base64 (p : List Char) :
    matchDataTail
      (';' :: 'b' :: 'a' :: 's' :: 'e' :: '6' :: '4' :: ',' :: p) = some p := rfl

/-- The greedy `[^;,]*` group stops exactly at the first separator. -/
theorem span_mimeSep (mime : List Char) (c : Char) (rest : List Char)
    (hm : ∀ x ∈ mime, mimeSep x = false) (hc : mimeSep c = true) :
    (mime ++ c :: rest).takeWhile (fun x => !mimeSep x) = mime ∧
    (mime ++ c :: rest).dropWhile (fun x => !mimeSep x) = c :: rest := by
  induction mime with
  | nil => simp [List.takeWhile_cons, List.dropWhile_cons, hc]
  | cons m ms ih =>
      have hm0 : mimeSep m = false := hm m (by simp)
      obtain ⟨h1, h2⟩ := ih fun x hx => hm x (by simp [hx])
      constructor
      · simp only [List.cons_append, List.takeWhile_cons, hm0]
        simp [h1]
      · simp only [List.cons_append, List.dropWhile_cons, hm0]
        simp [h2]

/-- A list starts with itself (prefixed to anything). -/
theorem startsWithChars_self_append (pat b : List Char) :
    startsWithChars pat (pat ++ b) = true := by
  induction pat with
  | nil => rfl
  | cons p ps ih => simp [startsWithChars, ih]

/-- If the pattern starts the list, the substring test succeeds. -/
theorem hasSubChars_of_startsWith (pat l : List Char)
    (h : startsWithChars pat l = true) : hasSubChars pat l = true := by
  cases l with
  | nil => simpa [hasSubChars] using h
  | cons c cs => simp [hasSubChars, h]

/-- The substring test finds an explicit occurrence. -/
theorem hasSubChars_append (pat a b : List Char) :
    hasSubChars pat (a ++ pat ++ b) = true := by
  induction a with
  | nil =>
      simp only [List.nil_append]
      exact hasSubChars_of_startsWith pat (pat ++ b)
        (startsWithChars_self_append pat b)
  | cons x xs ih =>
      simp only [List.cons_append, hasSubChars, Bool.or_eq_true]
      right
      simpa [List.append_assoc] using ih

/-- The lowercased URL of a base64-flagged data URL contains
`";base64,"`. -/
theorem containsCI_base64_flag (mime payload : String) :
    containsCI ";base64," ("data:" ++ mime ++ ";base64," ++ payload) = true := by
  unfold containsCI lowerStr
  have hl : (String.mk
      ((("data:" ++ mime ++ ";base64," ++ payload)).toList.map Char.toLower)).toList =
      (("data:".toList ++ mime.toList).map Char.toLower ++ ";base64,".toList ++
        payload.toList.map Char.toLower) := by
    rw [strToList_append, strToList_append, strToList_append]
    simp [List.map_append]
  rw [hl]
  exact hasSubChars_append _ _ _

/-- Claim C3, counterexample: for the data URL
`data:text/plain,x;base64,y` — no `;base64` flag before the comma, so
per the claim its payload `x;base64,y` must be percent-decoded and
re-encoded to base64 — the source detects "base64" by searching the
whole URL for `";base64,"`, finds it inside the payload, and returns
the payload as-is. The fetch count is still zero. -/
theorem c3_base64_detection_counterexample :
    contentToParts noFetch
        (.items [{ type := "image_url",
                   image_url := some { url := "data:text/plain,x;base64,y" } }]) =
      .ok ([{ inlineData := some { mimeType := "text/plain", data := "x;base64,y" } }],
        []) ∧
    "x;base64,y" ≠ base64String (strUtf8 "x;base64,y") := by
  refine ⟨rfl, ?_⟩
  decide

/-- A string whose char list is empty is the empty string. -/
theorem strEqEmpty_of_toList (s : String) (h : s.toList = []) : s = "" := by
  cases s with
  | mk d => cases h; rfl

/-- The regex accepts a base64-flagged data URL and `parseDataUrl`
returns the payload untouched. -/
theorem parseDataUrl_flagged (mime payload : String)
    (hm : ∀ c ∈ mime.toList, mimeSep c = false)
    (hp : ∀ c ∈ payload.toList, lineTerm c = false) :
    parseDataUrl ("data:" ++ mime ++ ";base64," ++ payload) =
      .ok (some
        { mimeType := if mime = "" then "application/octet-stream" else mime
          data := payload }) := by
  unfold parseDataUrl
  have hlist : ("data:" ++ mime ++ ";base64," ++ payload).toList =
      'd' :: 'a' :: 't' :: 'a' :: ':' ::
        (mime.toList ++
          ';' :: 'b' :: 'a' :: 's' :: 'e' :: '6' :: '4' :: ',' :: payload.toList) := by
    rw [strToList_append, strToList_append, strToList_append]
    simp [List.append_assoc]
  rw [hlist, stripDataScheme_cons]
  dsimp only
  obtain ⟨ht, hd⟩ := span_mimeSep mime.toList ';'
    ('b' :: 'a' :: 's' :: 'e' :: '6' :: '4' :: ',' :: payload.toList) hm rfl
  rw [ht, hd, matchDataTail_base64]
  dsimp only
  have hany : payload.toList.any lineTerm = false :=
    List.any_eq_false.mpr fun x hx => by simp [hp x hx]
  rw [hany, containsCI_base64_flag]
  by_cases h0 : mime = ""
  · subst h0
    simp
  · have hne : mime.toList.isEmpty = false := by
      cases hml : mime.toList with
      | nil => exact absurd (strEqEmpty_of_toList mime hml) h0
      | cons c cs => rfl
    simp only [hne, Bool.false_eq_true, if_false]
    simp
    rw [if_neg h0]

/-- The regex accepts an unflagged data URL; when the whole URL does not
contain `";base64,"` the payload is percent-decoded and re-encoded. -/
theorem parseDataUrl_plain (mime payload : String) (bytes : List Nat)
    (hm : ∀ c ∈ mime.toList, mimeSep c = false)
    (hp : ∀ c ∈ payload.toList, lineTerm c = false)
    (hnf : containsCI ";base64," ("data:" ++ mime ++ "," ++ payload) = false)
    (hdec : decodeRecodeBytes payload.toList = some bytes) :
    parseDataUrl ("data:" ++ mime ++ "," ++ payload) =
      .ok (some
        { mimeType := if mime = "" then "application/octet-stream" else mime
          data := base64String bytes }) := by
  unfold parseDataUrl
  have hlist : ("data:" ++ mime ++ "," ++ payload).toList =
      'd' :: 'a' :: 't' :: 'a' :: ':' :: (mime.toList ++ ',' :: payload.toList) := by
    rw [strToList_append, strToList_append, strToList_append]
    simp [List.append_assoc]
  rw [hlist, stripDataScheme_cons]
  dsimp only
  obtain ⟨ht, hd⟩ := span_mimeSep mime.toList ',' payload.toList hm rfl
  rw [ht, hd, matchDataTail_comma]
  dsimp only
  have hany : payload.toList.any lineTerm = false :=
    List.any_eq_false.mpr fun x hx => by simp [hp x hx]
  rw [hany, hnf, hdec]
  by_cases h0 : mime = ""
  · subst h0
    simp
  · have hne : mime.toList.isEmpty = false := by
      cases hml : mime.toList with
      | nil => exact absurd (strEqEmpty_of_toList mime hml) h0
      | cons c cs => rfl
    simp only [hne, Bool.false_eq_true, if_false]
    simp
    rw [if_neg h0]

/-- A URL starting `https://` never matches the data-URL regex. -/
theorem parseDataUrl_https (rest : String) :
    parseDataUrl ("https://" ++ rest) = .ok none := rfl

/-- Claim C3, amended: every URL the data-URL regex accepts is resolved
locally with zero fetches — the parsed blob is used directly, and a
payload whose percent-decoding throws propagates that error, still
without fetching.  The payload is taken as-is exactly when the whole
URL (lowercased) contains `";base64,"` anywhere — in particular always
when the `;base64` flag is present — and otherwise it is
percent-decoded and re-encoded to base64.  An `https://` URL does not
match the regex and costs exactly one fetch. -/
theorem c3_data_url_no_fetch :
    (∀ (fetch : Fetcher) (url : String) (d : InlineData),
      parseDataUrl url = .ok (some d) →
      contentToParts fetch
          (.items [{ type := "image_url", image_url := some { url := url } }]) =
        .ok ([{ inlineData := some d }], [])) ∧
    (∀ (fetch : Fetcher) (url e : String),
      parseDataUrl url = .error e →
      contentToParts fetch
          (.items [{ type := "image_url", image_url := some { url := url } }]) =
        .error e) ∧
    (∀ mime payload : String,
      (∀ c ∈ mime.toList, mimeSep c = false) →
      (∀ c ∈ payload.toList, lineTerm c = false) →
      parseDataUrl ("data:" ++ mime ++ ";base64," ++ payload) =
        .ok (some
          { mimeType := if mime = "" then "application/octet-stream" else mime
            data := payload })) ∧
    (∀ (mime payload : String) (bytes : List Nat),
      (∀ c ∈ mime.toList, mimeSep c = false) →
      (∀ c ∈ payload.toList, lineTerm c = false) →
      containsCI ";base64," ("data:" ++ mime ++ "," ++ payload) = false →
      decodeRecodeBytes payload.toList = some bytes →
      parseDataUrl ("data:" ++ mime ++ "," ++ payload) =
        .ok (some
          { mimeType := if mime = "" then "application/octet-stream" else mime
            data := base64String bytes })) ∧
    (∀ (fetch : Fetcher) (rest : String) (blob : InlineData),
      fetch ("https://" ++ rest) = .ok blob →
      contentToParts fetch
          (.items [{ type := "image_url",
                     image_url := some { url := "https://" ++ rest } }]) =
        .ok ([{ inlineData := some blob }], ["https://" ++ rest])) := by
  refine ⟨?_, ?_, parseDataUrl_flagged, parseDataUrl_plain, ?_⟩
  · intro fetch url d h
    have hip : itemParts fetch
        { type := "image_url", image_url := some { url := url } } =
        .ok ([{ inlineData := some d }], []) := by
      simp [itemParts, h, ok_bind]
    rw [show contentToParts fetch
        (.items [{ type := "image_url", image_url := some { url := url } }]) =
      contentItemsToParts fetch
        [{ type := "image_url", image_url := some { url := url } }] from rfl]
    rw [contentItemsToParts_cons, hip, ok_bind]
    simp [contentItemsToParts, ok_bind]
  · intro fetch url e h
    have hip : itemParts fetch
        { type := "image_url", image_url := some { url := url } } = .error e := by
      simp [itemParts, h, error_bind]
    rw [show contentToParts fetch
        (.items [{ type := "image_url", image_url := some { url := url } }]) =
      contentItemsToParts fetch
        [{ type := "image_url", image_url := some { url := url } }] from rfl]
    rw [contentItemsToParts_cons, hip, error_bind]
  · intro fetch rest blob hf
    have hip : itemParts fetch
        { type := "image_url", image_url := some { url := "https://" ++ rest } } =
        .ok ([{ inlineData := some blob }], ["https://" ++ rest]) := by
      simp [itemParts, parseDataUrl_https, hf, ok_bind]
    rw [show contentToParts fetch
        (.items [{ type := "image_url",
                   image_url := some { url := "https://" ++ rest } }]) =
      contentItemsToParts fetch
        [{ type := "image_url",
           image_url := some { url := "https://" ++ rest } }] from rfl]
    rw [contentItemsToParts_cons, hip, ok_bind]
    simp [contentItemsToParts, ok_bind]

/-- A fetcher always answering with a fixed blob. -/
def okFetch : Fetcher := fun _ => .ok { mimeType := "image/png", data := "QUJD" }

/-- Witness for C3: a base64 data URL resolves locally with no fetch, an
`https://` URL costs exactly one fetch, and an unflagged data URL is
percent-decoded then re-encoded (`"a%20b"` to base64 of `"a b"`). -/
theorem c3_data_url_no_fetch_witness :
    contentToParts noFetch
        (.items [{ type := "image_url",
                   image_url := some { url := "data:image/png;base64,iVBOR" } }]) =
      .ok ([{ inlineData := some { mimeType := "image/png", data := "iVBOR" } }],
        []) ∧
    contentToParts okFetch
        (.items [{ type := "image_url",
                   image_url := some { url := "https://example.com/cat.png" } }]) =
      .ok ([{ inlineData := some { mimeType := "image/png", data := "QUJD" } }],
        ["https://example.com/cat.png"]) ∧
    parseDataUrl ("data:" ++ "text/plain" ++ "," ++ "a%20b") =
      .ok (some { mimeType := "text/plain", data := base64String [97, 32, 98] }) := by
  refine ⟨?_, ?_, ?_⟩
  · exact c3_data_url_no_fetch.1 noFetch "data:image/png;base64,iVBOR"
      { mimeType := "image/png", data := "iVBOR" } rfl
  · exact c3_data_url_no_fetch.2.2.2.2 okFetch "example.com/cat.png"
      { mimeType := "image/png", data := "QUJD" } rfl
  · exact c3_data_url_no_fetch.2.2.2.1 "text/plain" "a%20b" [97, 32, 98]
      (by decide) (by decide) (by decide) (by decide)

end Bridge
